import Mathlib

/- Shallow embedding of the GPS route-comparison analytics core (utils.js and
FileParser.js of the route-comparison repository).

Modelling conventions:
* JavaScript numbers are embedded as elements of an arbitrary linear ordered
  field `α` (instantiated at `ℚ` for concrete evaluations and at `ℝ` for the
  trigonometric haversine distance); floating-point rounding is not modelled.
* `null`/`undefined` becomes `Option`; a missing array slot read in JS
  (`undefined`) is read here with `List.getD _ none`.
* JS `Date` objects are embedded as their millisecond epoch value.  A `Date`
  object is always truthy in JS, so a truthiness test on a timestamp is a
  test for `null` only; a truthiness test on a plain number (such as a speed
  in km/h) is also triggered by the value `0`, and the embedding keeps that
  behaviour explicitly.
* Functions composed with `this.haversineDistance` take the point-to-point
  distance function `dist` as an explicit parameter; the repository's
  pipeline is the instance `dist := haversineDistance` (over `ℝ`).  All
  structural theorems below are proved for every `dist`, hence in particular
  for the haversine instance.
* `for`/`while` loops are translated to structural recursion or to maps over
  `List.range` with the loop's exact iteration count; the binary searches use
  a fuel argument that strictly dominates the loop's iteration count.
-/

/-! ### GeoMath: haversine distance (utils.js lines 11-24) -/

/-- Coordinate record `{lat, lng}` (degrees). -/
structure Coordinate where
  lat : ℝ
  lng : ℝ

/-- Embeds `toRad(deg)`: degrees to radians. -/
noncomputable def toRad (deg : ℝ) : ℝ :=
  deg * (Real.pi / 180)

/-- JS `Math.atan2(y, x)` (quadrant-aware arctangent; the signed-zero corner
cases of IEEE floats are irrelevant here and are not modelled). -/
noncomputable def atan2 (y x : ℝ) : ℝ :=
  if 0 < x then Real.arctan (y / x)
  else if x < 0 then
    (if 0 ≤ y then Real.arctan (y / x) + Real.pi else Real.arctan (y / x) - Real.pi)
  else if 0 < y then Real.pi / 2
  else if y < 0 then -(Real.pi / 2)
  else 0

/-- Embeds `haversineDistance(coord1, coord2)`: great-circle distance in km,
Earth radius 6371 km (utils.js lines 11-20). -/
noncomputable def haversineDistance (coord1 coord2 : Coordinate) : ℝ :=
  let dLat := toRad (coord2.lat - coord1.lat)
  let dLon := toRad (coord2.lng - coord1.lng)
  let a := Real.sin (dLat/2) * Real.sin (dLat/2) +
      Real.cos (toRad coord1.lat) * Real.cos (toRad coord2.lat) *
      Real.sin (dLon/2) * Real.sin (dLon/2)
  let c := 2 * atan2 (Real.sqrt a) (Real.sqrt (1 - a))
  6371 * c

/-! ### Data model -/

/-- Elevation statistics record of `calculateElevationStats`. -/
structure ElevStats (α : Type) where
  gain : α
  loss : α
  min : α
  max : α
deriving DecidableEq

/-- Embeds `DistanceTimeMap`: parallel cumulative-distance / elapsed-seconds arrays. -/
structure TimeDistanceMap (α : Type) where
  distances : List α
  times : List α
deriving DecidableEq

/-- The slice of a parsed route used by the analytics functions: coordinates
(of an abstract point type `P`), and index-aligned optional channels.
Timestamps are millisecond epoch values. -/
structure Route (P α : Type) where
  coordinates : List P
  timestamps : List (Option α)
  elevations : List (Option α)
  heartRates : List (Option α)
deriving DecidableEq

/-! ### DerivedMetrics: calculateElevationStats (utils.js lines 34-54) -/

/-- Loop body of `calculateElevationStats`: fold over the valid elevations
carrying `(gain, loss, min, max)` and the previous value. -/
def elevLoop {α : Type} [LinearOrderedField α] :
    α → α → α → α → α → List α → ElevStats α
  | gain, loss, mn, mx, _, [] => ⟨gain, loss, mn, mx⟩
  | gain, loss, mn, mx, prev, v :: rest =>
    let diff := v - prev
    elevLoop (if 0 < diff then gain + diff else gain)
      (if 0 < diff then loss else loss + |diff|)
      (if v < mn then v else mn)
      (if mx < v then v else mx)
      v rest

/-- Embeds `calculateElevationStats(elevations)` (utils.js lines 34-54): gain/loss
from consecutive deltas of the non-null subsequence, plus its min and max;
all zeros when no valid elevation exists.  (`isNaN` filtering is vacuous in
the embedding, which has no NaN.) -/
def calculateElevationStats {α : Type} [LinearOrderedField α]
    (elevations : List (Option α)) : ElevStats α :=
  let validElevations := elevations.filterMap id
  match validElevations with
  | [] => ⟨0, 0, 0, 0⟩
  | v :: rest => elevLoop 0 0 v v v rest

/-- Spec-side definition (§4.5 of the spec): the sum of the positive deltas
between consecutive elements of a list. -/
def posDeltaSum {α : Type} [LinearOrderedField α] : List α → α
  | [] => 0
  | [_] => 0
  | a :: b :: rest => (if 0 < b - a then b - a else 0) + posDeltaSum (b :: rest)

/-- Spec-side definition (§4.5 of the spec): the sum of the absolute values of
the non-positive deltas between consecutive elements of a list (the source
adds `|diff|` to `loss` whenever `diff ≤ 0`, which contributes `0` for equal
neighbours). -/
def negDeltaAbsSum {α : Type} [LinearOrderedField α] : List α → α
  | [] => 0
  | [_] => 0
  | a :: b :: rest => (if 0 < b - a then 0 else |b - a|) + negDeltaAbsSum (b :: rest)

/-! ### DistanceTimeIndex (utils.js lines 296-358) -/

/-- Loop of `buildTimeDistanceMap` (utils.js lines 308-317): walk the
coordinates from index 1, accumulating distance, and emit a
`(cumulativeDistance, elapsedSeconds)` pair at each index whose timestamp is
present.  `prev` is the previous coordinate, `cum` the distance accumulated
so far, and the timestamp list is consumed in lockstep (a missing slot reads
as `none`, matching `undefined`). -/
def buildEntries {P α : Type} [LinearOrderedField α] (dist : P → P → α)
    (t0 : α) : P → α → List P → List (Option α) → List (α × α)
  | _, _, [], _ => []
  | prev, cum, c :: cs, ts =>
    let cum' := cum + dist prev c
    match ts with
    | some t :: ts' => (cum', (t - t0) / 1000) :: buildEntries dist t0 c cum' cs ts'
    | none :: ts' => buildEntries dist t0 c cum' cs ts'
    | [] => buildEntries dist t0 c cum' cs []

/-- Embeds `buildTimeDistanceMap(route)` (utils.js lines 296-320).  Returns `none`
when there are no timestamps, when the first timestamp is absent, or when the
start time is falsy (a `Date` whose epoch value is `0` fails the JS
`if (!startTime)` check), or when fewer than two map entries result. -/
def buildTimeDistanceMap {P α : Type} [LinearOrderedField α]
    (dist : P → P → α) (route : Route P α) : Option (TimeDistanceMap α) :=
  match route.coordinates, route.timestamps with
  | _, [] => none
  | _, none :: _ => none
  | [], some _ :: _ => none
  | c0 :: cs, some t0 :: ts =>
    if t0 = 0 then none
    else
      let entries := buildEntries dist t0 c0 0 cs ts
      if entries.isEmpty then none
      else some ⟨0 :: entries.map Prod.fst, 0 :: entries.map Prod.snd⟩

/-- The `while (low < high - 1)` binary-search loop shared by
`getTimeAtDistance` (utils.js lines 339-346) and `findIndexAtDistance`
(utils.js lines 437-444), with a fuel argument: each iteration strictly
shrinks `high - low`, so any fuel of at least `high - low` computes the
loop's exact result. -/
def bsearchGo {α : Type} [LinearOrderedField α] (ds : List α) (target : α) :
    ℕ → ℕ → ℕ → ℕ × ℕ
  | 0, low, high => (low, high)
  | fuel+1, low, high =>
    if low + 1 < high then
      if ds.getD ((low + high) / 2) 0 ≤ target then
        bsearchGo ds target fuel ((low + high) / 2) high
      else
        bsearchGo ds target fuel low ((low + high) / 2)
    else (low, high)

/-- Embeds `getTimeAtDistance(map, targetDistance)` (utils.js lines 322-358):
`none` beyond the last mapped distance, `0` at or before the start, otherwise
binary search for the bracketing pair and linear interpolation of the times. -/
def getTimeAtDistance {α : Type} [LinearOrderedField α]
    (map : TimeDistanceMap α) (targetDistance : α) : Option α :=
  if map.distances.length < 2 then none
  else if map.distances.getD (map.distances.length - 1) 0 < targetDistance then none
  else if targetDistance ≤ 0 then some 0
  else
    let p := bsearchGo map.distances targetDistance map.distances.length 0
      (map.distances.length - 1)
    let d1 := map.distances.getD p.1 0
    let d2 := map.distances.getD p.2 0
    let t1 := map.times.getD p.1 0
    let t2 := map.times.getD p.2 0
    if d2 = d1 then some t1
    else some (t1 + (targetDistance - d1) / (d2 - d1) * (t2 - t1))

/-- Embeds `findIndexAtDistance(distances, targetKm)` (utils.js lines 429-447):
last index whose cumulative distance is at most the target, via the same
binary search, clamped to the array bounds. -/
def findIndexAtDistance {α : Type} [LinearOrderedField α]
    (distances : List α) (targetKm : α) : ℕ :=
  if distances.isEmpty then 0
  else if targetKm ≤ 0 then 0
  else if distances.getD (distances.length - 1) 0 ≤ targetKm then
    distances.length - 1
  else (bsearchGo distances targetKm distances.length 0 (distances.length - 1)).1

/-! ### GPSCleaner (utils.js lines 191-293) -/

/-- JS truthiness failure of an optional numeric value (`!speeds[i]`):
`null`/`undefined`, or the number `0` (zero is falsy in JS). -/
def numFalsy {α : Type} [LinearOrderedField α] (o : Option α) : Bool :=
  o = none || o = some 0

/-- Embeds `filterAccelerationSpikes(speeds, timestamps, maxAcceleration)`
(utils.js lines 191-218).  Index 0 passes through; for `i ≥ 1` a falsy
adjacent speed (null or zero) or a null adjacent timestamp passes the raw
speed through; otherwise the km/h delta of the raw speeds is converted to
m/s and divided by the elapsed seconds, and the point is nulled when that
acceleration exceeds the threshold and the elapsed time is positive.
Timestamps are `Date`s, so only `null` is falsy for them. -/
def filterAccelerationSpikes {α : Type} [LinearOrderedField α]
    (speeds timestamps : List (Option α)) (maxAcceleration : α) :
    List (Option α) :=
  if speeds.length < 2 then speeds
  else
    (List.range speeds.length).map (fun i =>
      if i = 0 then speeds.getD 0 none
      else if numFalsy (speeds.getD i none) ∨ numFalsy (speeds.getD (i-1) none) ∨
          timestamps.getD i none = none ∨ timestamps.getD (i-1) none = none then
        speeds.getD i none
      else
        let v := (speeds.getD i none).getD 0
        let vp := (speeds.getD (i-1) none).getD 0
        let t := (timestamps.getD i none).getD 0
        let tp := (timestamps.getD (i-1) none).getD 0
        let deltaSpeed := |v - vp| * (1000 / 3600)
        let deltaTime := (t - tp) / 1000
        if 0 < deltaTime ∧ maxAcceleration < deltaSpeed / deltaTime then none
        else speeds.getD i none)

/-- Embeds `filterDistanceJumps(coordinates, timestamps, maxSpeedKmh)`
(utils.js lines 220-247).  The flag at index 0 is `true`; for `i ≥ 1` the
flag is `false` exactly when both adjacent timestamps are present, the
elapsed time is positive, and the speed implied by the point-to-point
distance exceeds `maxSpeedKmh`.  (The coordinate reads are always in bounds
in the source loop; the catch-all arm is unreachable for aligned inputs.) -/
def filterDistanceJumps {P α : Type} [LinearOrderedField α]
    (dist : P → P → α) (coordinates : List P)
    (timestamps : List (Option α)) (maxSpeedKmh : α) : List Bool :=
  if coordinates.length < 2 then coordinates.map (fun _ => true)
  else
    (List.range coordinates.length).map (fun i =>
      if i = 0 then true
      else
        match timestamps.getD i none, timestamps.getD (i-1) none,
            coordinates.get? i, coordinates.get? (i-1) with
        | some t, some tp, some c, some cp =>
          let distance := dist cp c * 1000
          let deltaTime := (t - tp) / 1000
          if 0 < deltaTime ∧ maxSpeedKmh < (distance / deltaTime) * (36/10) then
            false
          else true
        | _, _, _, _ => true)

/-- Result record of `cleanGPSData`. -/
structure CleanedGPS (α : Type) where
  speeds : List (Option α)
  paces : List (Option α)
  validIndices : List ℕ
deriving DecidableEq

/-- The range test `speeds[i] > maxSpeed || speeds[i] < 0` of `cleanGPSData`
(utils.js line 284).  A null speed never reaches this test in the source
(its acceleration-filtered value is null, which triggers the earlier
branch), so the `none` arm is unreachable there. -/
def speedOutOfRange {α : Type} [LinearOrderedField α] (maxSpeed : α) :
    Option α → Bool
  | some v => maxSpeed < v || v < 0
  | none => false

/-- Loop of `cleanGPSData` (utils.js lines 280-290) over the given index
list: a point whose distance-jump flag is false or whose
acceleration-filtered speed is null, or whose raw speed is out of range, has
both its speed and pace nulled; surviving indices are collected in order. -/
def cleanLoop {α : Type} [LinearOrderedField α]
    (speeds paces : List (Option α)) (distanceFlags : List Bool)
    (accelFiltered : List (Option α)) (maxSpeed : α) :
    List ℕ → CleanedGPS α
  | [] => ⟨[], [], []⟩
  | i :: rest =>
    let r := cleanLoop speeds paces distanceFlags accelFiltered maxSpeed rest
    if distanceFlags.getD i false = false ∨ accelFiltered.getD i none = none then
      ⟨none :: r.speeds, none :: r.paces, r.validIndices⟩
    else if speedOutOfRange maxSpeed (speeds.getD i none) then
      ⟨none :: r.speeds, none :: r.paces, r.validIndices⟩
    else
      ⟨speeds.getD i none :: r.speeds, paces.getD i none :: r.paces,
        i :: r.validIndices⟩

/-- Embeds `cleanGPSData(speeds, paces, coordinates, timestamps, maxSpeed)`
(utils.js lines 270-293); the acceleration filter runs with its default
threshold of 10 m/s². -/
def cleanGPSData {P α : Type} [LinearOrderedField α] (dist : P → P → α)
    (speeds paces : List (Option α)) (coordinates : List P)
    (timestamps : List (Option α)) (maxSpeed : α) : CleanedGPS α :=
  let distanceFlags := filterDistanceJumps dist coordinates timestamps maxSpeed
  let accelFiltered := filterAccelerationSpikes speeds timestamps 10
  cleanLoop speeds paces distanceFlags accelFiltered maxSpeed
    (List.range speeds.length)

/-! ### RouteComparator: time gaps (utils.js lines 360-411) -/

/-- One comparison entry of a time-gap sample point. -/
structure TimeGapComparison (P α : Type) where
  route : Route P α
  time : α
  gap : α
deriving DecidableEq

/-- One sample point of the time-gap series. -/
structure TimeGapPoint (P α : Type) where
  distance : α
  referenceTime : α
  comparisons : List (TimeGapComparison P α)
deriving DecidableEq

/-- Result record of `calculateTimeGaps`. -/
structure TimeGapResult (P α : Type) where
  referenceRoute : Route P α
  gaps : List (TimeGapPoint P α)
  maxDistance : α
deriving DecidableEq

/-- The final (last) mapped distance of a `DistanceTimeMap`
(`map.distances[map.distances.length - 1]`). -/
def lastDistance {α : Type} [LinearOrderedField α] (m : TimeDistanceMap α) : α :=
  m.distances.getD (m.distances.length - 1) 0

/-- Stage 1 of `calculateTimeGaps` (utils.js lines 364-367): pair each
comparison route with its `DistanceTimeMap`, dropping routes whose map fails
to build. -/
def timeGapCompMaps {P α : Type} [LinearOrderedField α] (dist : P → P → α)
    (comparisonRoutes : List (Route P α)) :
    List (Route P α × TimeDistanceMap α) :=
  comparisonRoutes.filterMap (fun r =>
    match buildTimeDistanceMap dist r with
    | some m => some (r, m)
    | none => none)

/-- Stage 2 of `calculateTimeGaps` (utils.js lines 372-376):
`Math.min` over the final mapped distances of the reference and all
successfully mapped comparison routes. -/
def timeGapMaxDist {P α : Type} [LinearOrderedField α]
    (refMap : TimeDistanceMap α)
    (compMaps : List (Route P α × TimeDistanceMap α)) : α :=
  compMaps.foldl (fun acc c => min acc (lastDistance c.2)) (lastDistance refMap)

/-- The exact iteration count of the sampling loop
`for (d = 0; d <= maxDist; d += sampleInterval)` (utils.js line 380):
`⌊maxDist / sampleInterval⌋ + 1` when `0 ≤ maxDist` and the interval is
positive (the source never terminates when `sampleInterval ≤ 0 ≤ maxDist`;
callers use the positive default `0.1`). -/
def timeGapCount {α : Type} [LinearOrderedField α] [FloorRing α]
    (maxDist sampleInterval : α) : ℕ :=
  if 0 < sampleInterval ∧ 0 ≤ maxDist then
    (⌊maxDist / sampleInterval⌋).toNat + 1
  else 0

/-- One iteration of the sampling loop of `calculateTimeGaps`
(utils.js lines 381-404) at sample index `k` (distance
`k * sampleInterval`): requires a reference time, collects the comparison
entries with a valid interpolated time, and drops the sample when no
comparison survives. -/
def timeGapPointAt {P α : Type} [LinearOrderedField α]
    (refMap : TimeDistanceMap α)
    (compMaps : List (Route P α × TimeDistanceMap α)) (sampleInterval : α)
    (k : ℕ) : Option (TimeGapPoint P α) :=
  match getTimeAtDistance refMap ((k : α) * sampleInterval) with
  | none => none
  | some refTime =>
    let comps := compMaps.filterMap (fun c =>
      match getTimeAtDistance c.2 ((k : α) * sampleInterval) with
      | some compTime => some ⟨c.1, compTime, compTime - refTime⟩
      | none => none)
    if comps.isEmpty then none
    else some ⟨(k : α) * sampleInterval, refTime, comps⟩

/-- Embeds `calculateTimeGaps(referenceRoute, comparisonRoutes, sampleInterval)`
(utils.js lines 360-411), assembled from the stages above. -/
def calculateTimeGaps {P α : Type} [LinearOrderedField α] [FloorRing α]
    (dist : P → P → α) (referenceRoute : Route P α)
    (comparisonRoutes : List (Route P α)) (sampleInterval : α) :
    Option (TimeGapResult P α) :=
  match buildTimeDistanceMap dist referenceRoute with
  | none => none
  | some refMap =>
    let compMaps := timeGapCompMaps dist comparisonRoutes
    if compMaps.isEmpty then none
    else
      let maxDist := timeGapMaxDist refMap compMaps
      some ⟨referenceRoute,
        (List.range (timeGapCount maxDist sampleInterval)).filterMap
          (timeGapPointAt refMap compMaps sampleInterval),
        maxDist⟩

/-! ### RouteComparator: splits (utils.js lines 428-547) -/

/-- One split record produced by `calculateSplits` (the source field
`isPartial` is embedded as `isPartialSplit`). -/
structure Split (α : Type) where
  number : ℕ
  startKm : α
  endKm : α
  distance : α
  isPartialSplit : Bool
  pace : Option α
  elevGain : α
  avgHR : Option α
deriving DecidableEq

/-- Sum of `dist` over consecutive pairs of a list of points. -/
def pairSum {P α : Type} [LinearOrderedField α] (dist : P → P → α) :
    List P → α
  | [] => 0
  | [_] => 0
  | a :: b :: rest => dist a b + pairSum dist (b :: rest)

/-- The segment-distance loop of `calculateSplitPace`
(utils.js lines 461-467): the sum of point-to-point distances over indices
`startIdx+1 .. endIdx`, i.e. over consecutive pairs of the coordinate slice
`[startIdx, endIdx]`. -/
def segmentDistance {P α : Type} [LinearOrderedField α] (dist : P → P → α)
    (coords : List P) (startIdx endIdx : ℕ) : α :=
  pairSum dist ((coords.drop startIdx).take (endIdx + 1 - startIdx))

/-- Embeds `calculateSplitPace(route, startIdx, endIdx)` (utils.js lines 449-474):
null when the index window is empty or inverted, a boundary timestamp is
missing, the duration or segment distance is non-positive, or the computed
pace in min/km falls outside the open interval `(0, 30)`.  (The source's
`!route.timestamps` test is vacuous here: the embedded route always carries
a timestamp list.) -/
def calculateSplitPace {P α : Type} [LinearOrderedField α]
    (dist : P → P → α) (route : Route P α) (startIdx endIdx : ℕ) : Option α :=
  if endIdx ≤ startIdx then none
  else
    match route.timestamps.getD startIdx none,
        route.timestamps.getD endIdx none with
    | some startTime, some endTime =>
      let durationSeconds := (endTime - startTime) / 1000
      if durationSeconds ≤ 0 then none
      else
        let segDist := segmentDistance dist route.coordinates startIdx endIdx
        if segDist ≤ 0 then none
        else
          let paceMinPerKm := (durationSeconds / 60) / segDist
          if 0 < paceMinPerKm ∧ paceMinPerKm < 30 then some paceMinPerKm
          else none
    | _, _ => none

/-- Embeds `calculateSplitElevGain(elevations, startIdx, endIdx)`
(utils.js lines 476-489): sum of positive elevation deltas over adjacent
pairs in the index window, skipping pairs with a missing member. -/
def calculateSplitElevGain {α : Type} [LinearOrderedField α]
    (elevations : List (Option α)) (startIdx endIdx : ℕ) : α :=
  if endIdx ≤ startIdx then 0
  else ((List.range (endIdx - startIdx)).map (fun j =>
    match elevations.getD (startIdx + j) none,
        elevations.getD (startIdx + j + 1) none with
    | some prev, some curr => if 0 < curr - prev then curr - prev else 0
    | _, _ => 0)).sum

/-- Embeds `calculateSplitAvg(arr, startIdx, endIdx)` (utils.js lines 491-499):
mean of the non-null values in the inclusive index slice. -/
def calculateSplitAvg {α : Type} [LinearOrderedField α]
    (arr : List (Option α)) (startIdx endIdx : ℕ) : Option α :=
  if endIdx ≤ startIdx then none
  else
    let valid := ((arr.drop startIdx).take (endIdx + 1 - startIdx)).filterMap id
    if valid.isEmpty then none
    else some (valid.sum / (valid.length : α))

/-- Loop of the cumulative-distance array of `calculateSplits`
(utils.js lines 507-513): each element is the previous cumulative distance
plus the point-to-point distance. -/
def cumAux {P α : Type} [LinearOrderedField α] (dist : P → P → α) :
    P → α → List P → List α
  | _, _, [] => []
  | prev, acc, c :: cs =>
    (acc + dist prev c) :: cumAux dist c (acc + dist prev c) cs

/-- The cumulative-distance array `distances` of `calculateSplits`:
`[0]` followed by the running haversine sums. -/
def cumulativeDistances {P α : Type} [LinearOrderedField α]
    (dist : P → P → α) : List P → List α
  | [] => [0]
  | c :: cs => 0 :: cumAux dist c 0 cs

/-- Embeds `calculateSplits(route, splitDistanceKm)` (utils.js lines 501-547).
The `while (currentKm < totalDistance)` loop runs exactly
`⌈totalDistance / splitDistanceKm⌉` times for a positive split distance
(and the source never terminates for a non-positive one when
`totalDistance > 0`; callers use the positive default `1.0`); iteration `k`
has `currentKm = k * splitDistanceKm` exactly. -/
def calculateSplits {P α : Type} [LinearOrderedField α] [FloorRing α]
    (dist : P → P → α) (route : Route P α) (splitDistanceKm : α) :
    List (Split α) :=
  if route.coordinates.length < 2 then []
  else if splitDistanceKm ≤ 0 then []
  else
    let distances := cumulativeDistances dist route.coordinates
    let totalDistance := distances.getD (distances.length - 1) 0
    let count := (⌈totalDistance / splitDistanceKm⌉).toNat
    (List.range count).map (fun (k : ℕ) =>
      let startKm := (k : α) * splitDistanceKm
      let endKm := min (startKm + splitDistanceKm) totalDistance
      let startIdx := findIndexAtDistance distances startKm
      let endIdx := findIndexAtDistance distances endKm
      ⟨(k + 1 : ℕ), startKm, endKm, endKm - startKm,
        decide (endKm - startKm < splitDistanceKm * (9/10)),
        calculateSplitPace dist route startIdx endIdx,
        calculateSplitElevGain route.elevations startIdx endIdx,
        calculateSplitAvg route.heartRates startIdx endIdx⟩)

/-! ### FieldValidator (FileParser.js lines 17-108) -/

/-- One raw per-point record, gathering the index-aligned slots of the raw
arrays that `validateParsedData` reads at one loop index. -/
structure RawPoint (α : Type) where
  lat : Option α
  lng : Option α
  elevation : Option α
  timestamp : Option α
  heartRate : Option α
  cadence : Option α
  power : Option α
deriving DecidableEq

/-- Embeds `validateCoordinate(lat, lng)` (FileParser.js lines 17-31): valid iff
both components are present and within `[-90, 90]` and `[-180, 180]`
(boundary values valid; the NaN/Infinity check is vacuous in the embedding). -/
def validateCoordinate {α : Type} [LinearOrderedField α]
    (lat lng : Option α) : Bool :=
  match lat, lng with
  | some la, some ln =>
    if la < -90 ∨ 90 < la then false
    else if ln < -180 ∨ 180 < ln then false
    else true
  | _, _ => false

/-- Embeds `validateElevation(elevation)` (FileParser.js lines 34-45) as a
`(valid, value)` pair: null is valid with value null; a value outside
`[-500, 9000]` m is invalid (the invalid result carries no value; its
downstream read yields null, embedded as `none`). -/
def validateElevation {α : Type} [LinearOrderedField α]
    (elevation : Option α) : Bool × Option α :=
  match elevation with
  | none => (true, none)
  | some e => if e < -500 ∨ 9000 < e then (false, none) else (true, some e)

/-- Embeds `validateTimestamp(timestamp, prevTimestamp)` (FileParser.js lines
48-59) as a `(valid, value)` pair: null is valid with value null; a
timestamp strictly earlier than the previous accepted one is invalid
(`not_chronological`); an equal one is accepted.  (`prevTimestamp` is a
`Date` or `null`, so its truthiness test is a null test; the
`instanceof Date` check is vacuous in the embedding.) -/
def validateTimestamp {α : Type} [LinearOrderedField α]
    (timestamp prevTimestamp : Option α) : Bool × Option α :=
  match timestamp with
  | none => (true, none)
  | some t =>
    match prevTimestamp with
    | some p => if t < p then (false, none) else (true, some t)
    | none => (true, some t)

/-- Kind tag of a recorded validation warning (the source stores formatted
strings; the embedding keeps the point index and the kind). -/
inductive WarnKind where
  | coordWarn
  | elevWarn
  | tsWarn
deriving DecidableEq

/-- Result record of `validateParsedData`. -/
structure Validated (α : Type) where
  coordinates : List (Option α × Option α)
  elevations : List (Option α)
  timestamps : List (Option α)
  heartRates : List (Option α)
  cadences : List (Option α)
  powers : List (Option α)
  skipped : ℕ
  warnings : List (ℕ × WarnKind)
deriving DecidableEq

/-- Loop of `validateParsedData` (FileParser.js lines 76-105) over the
remaining raw points, carrying the current point index `i` (for warnings)
and `lastValidTimestamp`.  An invalid coordinate drops the whole point
(`continue` before any field processing); an invalid elevation or timestamp
degrades that field to null in place; `lastValidTimestamp` advances exactly
at accepted non-null timestamps. -/
def validateAux {α : Type} [LinearOrderedField α] :
    List (RawPoint α) → ℕ → Option α → Validated α
  | [], _, _ => ⟨[], [], [], [], [], [], 0, []⟩
  | p :: ps, i, lastValid =>
    if validateCoordinate p.lat p.lng then
      let elevResult := validateElevation p.elevation
      let tsResult := validateTimestamp p.timestamp lastValid
      let lastValid' := match tsResult.2 with
        | some v => some v
        | none => lastValid
      let rest := validateAux ps (i+1) lastValid'
      ⟨(p.lat, p.lng) :: rest.coordinates,
        (if elevResult.1 then elevResult.2 else none) :: rest.elevations,
        (if tsResult.1 then tsResult.2 else none) :: rest.timestamps,
        p.heartRate :: rest.heartRates,
        p.cadence :: rest.cadences,
        p.power :: rest.powers,
        rest.skipped,
        (if elevResult.1 then [] else [(i, WarnKind.elevWarn)]) ++
          ((if tsResult.1 then [] else [(i, WarnKind.tsWarn)]) ++ rest.warnings)⟩
    else
      let rest := validateAux ps (i+1) lastValid
      ⟨rest.coordinates, rest.elevations, rest.timestamps, rest.heartRates,
        rest.cadences, rest.powers, rest.skipped + 1,
        (i, WarnKind.coordWarn) :: rest.warnings⟩

/-- Embeds `validateParsedData(rawData)` (FileParser.js lines 62-108). -/
def validateParsedData {α : Type} [LinearOrderedField α]
    (raw : List (RawPoint α)) : Validated α :=
  validateAux raw 0 none

/-- The last non-null entry of a list of optionals, with a fallback: the
value of `lastValidTimestamp` after folding the given output timestamps. -/
def lastSome {α : Type} (init : Option α) (l : List (Option α)) : Option α :=
  l.foldl (fun acc x => match x with | some v => some v | none => acc) init

/-- The timestamp slot pushed for a kept point
(`tsResult.valid ? tsResult.value : null`, FileParser.js line 101). -/
def tsOutput {α : Type} [LinearOrderedField α] (t prev : Option α) : Option α :=
  if (validateTimestamp t prev).1 then (validateTimestamp t prev).2 else none

/-- The raw points that survive the coordinate check (the points
`validateParsedData` keeps). -/
def keptPoints {α : Type} [LinearOrderedField α] (raw : List (RawPoint α)) :
    List (RawPoint α) :=
  raw.filter (fun p => validateCoordinate p.lat p.lng)

/-- An all-null raw point, used as the `getD` fallback in statements. -/
def emptyRawPoint {α : Type} : RawPoint α :=
  ⟨none, none, none, none, none, none, none⟩

/-! ### ZoneAnalyzer (spec §4.9; implementation not present under src/) -/

/-- Add a value to the list element at an index (identity when out of
bounds). -/
def addAt {β : Type} [Add β] : ℕ → β → List β → List β
  | _, _, [] => []
  | 0, d, x :: xs => (x + d) :: xs
  | n+1, d, x :: xs => x :: addAt n d xs

/-- Index of the first maximum of a list (`best` is the best index so far,
`bv` its value, `curIdx` the index of the head of the remaining list). -/
def argmaxAux {α : Type} [LinearOrder α] :
    ℕ → ℕ → α → List α → ℕ
  | _, best, _, [] => best
  | curIdx, best, bv, x :: xs =>
    if bv < x then argmaxAux (curIdx+1) curIdx x xs
    else argmaxAux (curIdx+1) best bv xs

/-- Index of the first maximum of a list (0 for an empty list). -/
def argmaxIdx {α : Type} [LinearOrder α] : List α → ℕ
  | [] => 0
  | v :: rest => argmaxAux 1 0 v rest

/-- Modelled from the spec: the zone index of a value for 5 equal-width bins
over `[minV, maxV]`, clamped to `0..4` (spec §4.9: "divides into 5
equal-width bins"). -/
def zoneIndexOf {α : Type} [LinearOrderedField α] [FloorRing α]
    (minV maxV v : α) : ℕ :=
  if maxV ≤ minV then 0
  else min 4 (⌊(v - minV) / ((maxV - minV) / 5)⌋).toNat

/-- Modelled from the spec: per-zone accumulated time (spec §4.9: "for each
consecutive pair of samples with a non-null value and valid elapsed time,
attributes that time delta to the zone of the current sample's value"). -/
def zoneTimes {α : Type} [LinearOrderedField α] [FloorRing α]
    (minV maxV : α) (values timestamps : List (Option α)) : List α :=
  (List.range values.length).foldl (fun acc i =>
    if i = 0 then acc
    else
      match values.getD i none, timestamps.getD i none,
          timestamps.getD (i-1) none with
      | some v, some t, some tp =>
        let delta := (t - tp) / 1000
        if 0 < delta then addAt (zoneIndexOf minV maxV v) delta acc else acc
      | _, _, _ => acc) [0, 0, 0, 0, 0]

/-- One zone bucket of the zone summary (the metric-specific zone names of
the spec are presentation and are not modelled). -/
structure ZoneBucket (α : Type) where
  zoneMin : α
  zoneMax : α
  timeInZone : α
  percent : ℤ
deriving DecidableEq

/-- Result record of `calculateZones`. -/
structure ZoneResult (α : Type) where
  zones : List (ZoneBucket α)
  dominantZone : ℕ
  minVal : α
  maxVal : α
deriving DecidableEq

/-- Modelled from the spec: `calculateZones(values, timestamps, metricName)`
(spec §4.9; the implementation file is not under src/, only its tests).
Requires at least 10 non-null values, else null; computes `[min, max]` over
the non-null values, five equal-width bins, time-weighted zone shares, and
per-zone integer percentages rounded so that the five percentages sum to
exactly 100, the rounding residual being added to the largest zone;
`dominantZone` is the index of the max-percent zone. -/
def calculateZones {α : Type} [LinearOrderedField α] [FloorRing α]
    (values timestamps : List (Option α)) : Option (ZoneResult α) :=
  let valid := values.filterMap id
  if valid.length < 10 then none
  else
    let minV := valid.foldl min (valid.headD 0)
    let maxV := valid.foldl max (valid.headD 0)
    let zt := zoneTimes minV maxV values timestamps
    let total := zt.sum
    let width := (maxV - minV) / 5
    let rawPercents := zt.map (fun t => round (t / total * 100))
    let residual := 100 - rawPercents.sum
    let percents := addAt (argmaxIdx zt) residual rawPercents
    let zones := (List.zip percents (List.zip zt (List.range 5))).map
      (fun x => ⟨minV + (x.2.2 : α) * width, minV + ((x.2.2 : α) + 1) * width,
        x.2.1, x.1⟩)
    some ⟨zones, argmaxIdx percents, minV, maxV⟩

/-! ### General helper lemmas -/

theorem getD_range_map {β : Type} (f : ℕ → β) (n i : ℕ) (h : i < n) (d : β) :
    ((List.range n).map f).getD i d = f i := by
  have hl : i < ((List.range n).map f).length := by simpa using h
  rw [List.getD_eq_getElem _ _ hl]
  simp

theorem getD_pairwise_le {α : Type} [LinearOrder α] {l : List α} (d : α)
    (h : List.Pairwise (· ≤ ·) l) {i j : ℕ} (hij : i ≤ j) (hj : j < l.length) :
    l.getD i d ≤ l.getD j d := by
  rcases Nat.lt_or_ge i j with hlt | hge
  · rw [List.getD_eq_getElem _ _ (Nat.lt_trans hlt hj), List.getD_eq_getElem _ _ hj]
    exact List.pairwise_iff_get.mp h ⟨i, Nat.lt_trans hlt hj⟩ ⟨j, hj⟩ hlt
  · have heq : i = j := le_antisymm hij hge
    subst heq
    rfl

theorem foldl_min_le_init {α : Type} [LinearOrder α] :
    ∀ (l : List α) (a : α), l.foldl min a ≤ a := by
  intro l
  induction l with
  | nil => intro a; exact le_refl a
  | cons b t ih =>
    intro a
    calc (b :: t).foldl min a = t.foldl min (min a b) := rfl
    _ ≤ min a b := ih _
    _ ≤ a := min_le_left _ _

theorem foldl_min_le_mem {α : Type} [LinearOrder α] :
    ∀ (l : List α) (a x : α), x ∈ l → l.foldl min a ≤ x := by
  intro l
  induction l with
  | nil => intro a x hx; exact absurd hx (List.not_mem_nil x)
  | cons b t ih =>
    intro a x hx
    rcases List.mem_cons.mp hx with h | h
    · subst h
      calc (x :: t).foldl min a = t.foldl min (min a x) := rfl
      _ ≤ min a x := foldl_min_le_init _ _
      _ ≤ x := min_le_right _ _
    · exact ih (min a b) x h

theorem foldl_min_mem {α : Type} [LinearOrder α] :
    ∀ (l : List α) (a : α), l.foldl min a = a ∨ l.foldl min a ∈ l := by
  intro l
  induction l with
  | nil => intro a; exact Or.inl rfl
  | cons b t ih =>
    intro a
    rcases ih (min a b) with h | h
    · rcases min_choice a b with hc | hc
      · exact Or.inl (by rw [List.foldl_cons, h, hc])
      · exact Or.inr (by rw [List.foldl_cons, h, hc]; exact List.mem_cons_self _ _)
    · exact Or.inr (List.mem_cons_of_mem _ h)

theorem foldl_max_le_init {α : Type} [LinearOrder α] :
    ∀ (l : List α) (a : α), a ≤ l.foldl max a := by
  intro l
  induction l with
  | nil => intro a; exact le_refl a
  | cons b t ih =>
    intro a
    calc a ≤ max a b := le_max_left _ _
    _ ≤ t.foldl max (max a b) := ih _
    _ = (b :: t).foldl max a := rfl

theorem foldl_max_le_mem {α : Type} [LinearOrder α] :
    ∀ (l : List α) (a x : α), x ∈ l → x ≤ l.foldl max a := by
  intro l
  induction l with
  | nil => intro a x hx; exact absurd hx (List.not_mem_nil x)
  | cons b t ih =>
    intro a x hx
    rcases List.mem_cons.mp hx with h | h
    · subst h
      calc x ≤ max a x := le_max_right _ _
      _ ≤ t.foldl max (max a x) := foldl_max_le_init _ _
      _ = (x :: t).foldl max a := rfl
    · exact ih (max a b) x h

theorem foldl_max_mem {α : Type} [LinearOrder α] :
    ∀ (l : List α) (a : α), l.foldl max a = a ∨ l.foldl max a ∈ l := by
  intro l
  induction l with
  | nil => intro a; exact Or.inl rfl
  | cons b t ih =>
    intro a
    rcases ih (max a b) with h | h
    · rcases max_choice a b with hc | hc
      · exact Or.inl (by rw [List.foldl_cons, h, hc])
      · exact Or.inr (by rw [List.foldl_cons, h, hc]; exact List.mem_cons_self _ _)
    · exact Or.inr (List.mem_cons_of_mem _ h)

/-! ### C9: calculateElevationStats -/

theorem elevLoop_spec {α : Type} [LinearOrderedField α] :
    ∀ (l : List α) (gain loss mn mx prev : α),
      (elevLoop gain loss mn mx prev l).gain = gain + posDeltaSum (prev :: l) ∧
      (elevLoop gain loss mn mx prev l).loss = loss + negDeltaAbsSum (prev :: l) ∧
      (elevLoop gain loss mn mx prev l).min = l.foldl min mn ∧
      (elevLoop gain loss mn mx prev l).max = l.foldl max mx := by
  intro l
  induction l with
  | nil =>
    intro g lo mn mx prev
    simp [elevLoop, posDeltaSum, negDeltaAbsSum]
  | cons v rest ih =>
    intro g lo mn mx prev
    simp only [elevLoop]
    obtain ⟨h1, h2, h3, h4⟩ := ih (if 0 < v - prev then g + (v - prev) else g)
      (if 0 < v - prev then lo else lo + |v - prev|)
      (if v < mn then v else mn) (if mx < v then v else mx) v
    refine ⟨?_, ?_, ?_, ?_⟩
    · rw [h1]
      show _ = g + posDeltaSum (prev :: v :: rest)
      rw [posDeltaSum]
      split <;> ring
    · rw [h2]
      show _ = lo + negDeltaAbsSum (prev :: v :: rest)
      rw [negDeltaAbsSum]
      split <;> ring
    · rw [h3, List.foldl_cons]
      congr 1
      rw [min_def]
      rcases lt_or_ge v mn with h | h
      · rw [if_pos h, if_neg (not_le.mpr h)]
      · rw [if_neg (not_lt.mpr h), if_pos h]
    · rw [h4, List.foldl_cons]
      congr 1
      rw [max_def]
      rcases lt_trichotomy mx v with h | h | h
      · rw [if_pos h, if_pos (le_of_lt h)]
      · rw [if_neg (by rw [h]; exact lt_irrefl v), if_pos (le_of_eq h), h]
      · rw [if_neg (not_lt.mpr (le_of_lt h)), if_neg (not_le.mpr h)]

/-- C9: for every elevations array, `calculateElevationStats` returns gain
equal to the sum of positive deltas and loss equal to the sum of absolute
negative deltas between consecutive elements of the non-null subsequence in
original order, together with the min and max of that subsequence; empty or
all-null input yields all zeros; and in particular
`calculateElevationStats([100,120,110,130]) = {gain:40, loss:10, min:100,
max:130}` and `calculateElevationStats([]) = {gain:0, loss:0, min:0, max:0}`. -/
theorem calculateElevationStats_correct {α : Type} [LinearOrderedField α] :
    (∀ elevations : List (Option α),
      (calculateElevationStats elevations).gain =
        posDeltaSum (elevations.filterMap id) ∧
      (calculateElevationStats elevations).loss =
        negDeltaAbsSum (elevations.filterMap id) ∧
      (elevations.filterMap id = [] →
        calculateElevationStats elevations = ⟨0, 0, 0, 0⟩) ∧
      (elevations.filterMap id ≠ [] →
        (calculateElevationStats elevations).min ∈ elevations.filterMap id ∧
        (calculateElevationStats elevations).max ∈ elevations.filterMap id ∧
        ∀ x ∈ elevations.filterMap id,
          (calculateElevationStats elevations).min ≤ x ∧
          x ≤ (calculateElevationStats elevations).max)) ∧
    calculateElevationStats
      ([some 100, some 120, some 110, some 130] : List (Option α)) =
      ⟨40, 10, 100, 130⟩ ∧
    calculateElevationStats ([] : List (Option α)) = ⟨0, 0, 0, 0⟩ := by
  refine ⟨?_, ?_, ?_⟩
  · intro elevations
    cases hv : elevations.filterMap id with
    | nil =>
      have hstats : calculateElevationStats elevations = ⟨0, 0, 0, 0⟩ := by
        unfold calculateElevationStats
        rw [hv]
      rw [hstats]
      refine ⟨by simp [posDeltaSum], by simp [negDeltaAbsSum], fun _ => rfl, ?_⟩
      intro h
      exact absurd rfl h
    | cons v rest =>
      have hstats : calculateElevationStats elevations = elevLoop 0 0 v v v rest := by
        unfold calculateElevationStats
        rw [hv]
      obtain ⟨h1, h2, h3, h4⟩ := elevLoop_spec rest 0 0 v v v
      rw [hstats]
      refine ⟨by rw [h1]; ring, by rw [h2]; ring, ?_, ?_⟩
      · intro h
        exact absurd h (List.cons_ne_nil v rest)
      · intro _
        refine ⟨?_, ?_, ?_⟩
        · rw [h3]
          rcases foldl_min_mem rest v with h | h
          · rw [h]; exact List.mem_cons_self _ _
          · exact List.mem_cons_of_mem _ h
        · rw [h4]
          rcases foldl_max_mem rest v with h | h
          · rw [h]; exact List.mem_cons_self _ _
          · exact List.mem_cons_of_mem _ h
        · intro x hx
          rcases List.mem_cons.mp hx with h | h
          · subst h
            exact ⟨by rw [h3]; exact foldl_min_le_init _ _,
              by rw [h4]; exact foldl_max_le_init _ _⟩
          · exact ⟨by rw [h3]; exact foldl_min_le_mem _ _ _ h,
              by rw [h4]; exact foldl_max_le_mem _ _ _ h⟩
  · norm_num [calculateElevationStats, elevLoop, List.filterMap_cons]
  · rfl

/-- Concrete instance of C9 at `ℚ`: hypotheses of the bound-and-membership
clause discharged on the worked example from the spec. -/
theorem calculateElevationStats_correct_witness :
    (calculateElevationStats
      ([some 100, some 120, some 110, some 130] : List (Option ℚ))).min ∈
      ([some 100, some 120, some 110, some 130] : List (Option ℚ)).filterMap id ∧
    calculateElevationStats
      ([some 100, some 120, some 110, some 130] : List (Option ℚ)) =
      ⟨40, 10, 100, 130⟩ := by
  constructor
  · exact ((calculateElevationStats_correct.1 _).2.2.2 (by simp [List.filterMap_cons])).1
  · exact calculateElevationStats_correct.2.1

/-! ### C10: haversineDistance -/

/-- C10: for every pair of coordinates, `haversineDistance(a, b)` equals
`haversineDistance(b, a)`, and for every coordinate,
`haversineDistance(a, a)` equals `0`. -/
theorem haversineDistance_symm_self :
    (∀ a b : Coordinate, haversineDistance a b = haversineDistance b a) ∧
    (∀ a : Coordinate, haversineDistance a a = 0) := by
  constructor
  · intro a b
    have h1 : toRad (b.lat - a.lat) / 2 = -(toRad (a.lat - b.lat) / 2) := by
      unfold toRad; ring
    have h2 : toRad (b.lng - a.lng) / 2 = -(toRad (a.lng - b.lng) / 2) := by
      unfold toRad; ring
    have key : Real.sin (toRad (b.lat - a.lat) / 2) *
          Real.sin (toRad (b.lat - a.lat) / 2) +
        Real.cos (toRad a.lat) * Real.cos (toRad b.lat) *
          Real.sin (toRad (b.lng - a.lng) / 2) *
          Real.sin (toRad (b.lng - a.lng) / 2) =
        Real.sin (toRad (a.lat - b.lat) / 2) *
          Real.sin (toRad (a.lat - b.lat) / 2) +
        Real.cos (toRad b.lat) * Real.cos (toRad a.lat) *
          Real.sin (toRad (a.lng - b.lng) / 2) *
          Real.sin (toRad (a.lng - b.lng) / 2) := by
      rw [h1, h2, Real.sin_neg, Real.sin_neg]
      ring
    show 6371 * (2 * atan2 _ _) = 6371 * (2 * atan2 _ _)
    rw [key]
  · intro a
    have h0 : toRad (a.lat - a.lat) / 2 = 0 := by
      unfold toRad; ring
    have h0' : toRad (a.lng - a.lng) / 2 = 0 := by
      unfold toRad; ring
    have hA : Real.sin (toRad (a.lat - a.lat) / 2) *
          Real.sin (toRad (a.lat - a.lat) / 2) +
        Real.cos (toRad a.lat) * Real.cos (toRad a.lat) *
          Real.sin (toRad (a.lng - a.lng) / 2) *
          Real.sin (toRad (a.lng - a.lng) / 2) = 0 := by
      rw [h0, h0', Real.sin_zero]
      ring
    show 6371 * (2 * atan2 _ _) = 0
    rw [hA]
    rw [show Real.sqrt 0 = 0 from Real.sqrt_zero,
      show (1:ℝ) - 0 = 1 by ring, Real.sqrt_one]
    unfold atan2
    rw [if_pos one_pos]
    norm_num [Real.arctan_zero]

/-! ### C6: filterAccelerationSpikes -/

/-- C6 (amended): for speeds/timestamps arrays of length at least 2,
`filterAccelerationSpikes` (at its default threshold of 10 m/s²) preserves
length, passes index 0 through unchanged, and for `i ≥ 1`: if either
adjacent speed is missing *or zero* (both are falsy in JS), or either
adjacent timestamp is missing, the output equals the input speed at `i`;
otherwise, when the elapsed time is positive, the output is null exactly
when the absolute km/h speed delta of the *raw* input speeds, converted to
m/s and divided by the elapsed seconds, exceeds 10 m/s² (and equals the raw
speed when the elapsed time is non-positive).  Every case reads only the raw
input arrays, so a single spiked sample can affect at most the two deltas
bounding it. -/
theorem filterAccelerationSpikes_amended {α : Type} [LinearOrderedField α]
    (speeds timestamps : List (Option α)) (hlen : 2 ≤ speeds.length) :
    (filterAccelerationSpikes speeds timestamps 10).length = speeds.length ∧
    (filterAccelerationSpikes speeds timestamps 10).getD 0 none =
      speeds.getD 0 none ∧
    ∀ i, 1 ≤ i → i < speeds.length →
      ((numFalsy (speeds.getD i none) = true ∨
        numFalsy (speeds.getD (i-1) none) = true ∨
        timestamps.getD i none = none ∨ timestamps.getD (i-1) none = none) →
        (filterAccelerationSpikes speeds timestamps 10).getD i none =
          speeds.getD i none) ∧
      (∀ v vp t tp, speeds.getD i none = some v →
        speeds.getD (i-1) none = some vp →
        timestamps.getD i none = some t → timestamps.getD (i-1) none = some tp →
        v ≠ 0 → vp ≠ 0 →
        (0 < (t - tp) / 1000 →
          ((filterAccelerationSpikes speeds timestamps 10).getD i none = none ↔
            10 < |v - vp| * (1000 / 3600) / ((t - tp) / 1000))) ∧
        ((t - tp) / 1000 ≤ 0 →
          (filterAccelerationSpikes speeds timestamps 10).getD i none =
            some v)) := by
  have hguard : ¬ speeds.length < 2 := not_lt.mpr hlen
  have hdef : filterAccelerationSpikes speeds timestamps 10 =
      (List.range speeds.length).map (fun i =>
        if i = 0 then speeds.getD 0 none
        else if numFalsy (speeds.getD i none) ∨ numFalsy (speeds.getD (i-1) none) ∨
            timestamps.getD i none = none ∨ timestamps.getD (i-1) none = none then
          speeds.getD i none
        else
          let v := (speeds.getD i none).getD 0
          let vp := (speeds.getD (i-1) none).getD 0
          let t := (timestamps.getD i none).getD 0
          let tp := (timestamps.getD (i-1) none).getD 0
          let deltaSpeed := |v - vp| * (1000 / 3600)
          let deltaTime := (t - tp) / 1000
          if 0 < deltaTime ∧ (10:α) < deltaSpeed / deltaTime then none
          else speeds.getD i none) := by
    unfold filterAccelerationSpikes
    rw [if_neg hguard]
  refine ⟨by rw [hdef]; simp, ?_, ?_⟩
  · rw [hdef, getD_range_map _ _ _ (by omega)]
    simp
  · intro i hi1 hin
    constructor
    · intro hfalsy
      rw [hdef, getD_range_map _ _ _ hin]
      rw [if_neg (by omega)]
      rw [if_pos (by
        rcases hfalsy with h | h | h | h
        · exact Or.inl h
        · exact Or.inr (Or.inl h)
        · exact Or.inr (Or.inr (Or.inl h))
        · exact Or.inr (Or.inr (Or.inr h)))]
    · intro v vp t tp hv hvp ht htp hv0 hvp0
      have hnotfalsy : ¬ (numFalsy (speeds.getD i none) = true ∨
          numFalsy (speeds.getD (i-1) none) = true ∨
          timestamps.getD i none = none ∨ timestamps.getD (i-1) none = none) := by
        rw [hv, hvp, ht, htp]
        simp [numFalsy, hv0, hvp0]
      have hbody : (filterAccelerationSpikes speeds timestamps 10).getD i none =
          (if 0 < (t - tp) / 1000 ∧ (10:α) < |v - vp| * (1000 / 3600) / ((t - tp) / 1000)
            then none else some v) := by
        rw [hdef, getD_range_map _ _ _ hin, if_neg (by omega), if_neg hnotfalsy]
        rw [hv, hvp, ht, htp]
        simp only [Option.getD_some]
      constructor
      · intro hdt
        rw [hbody]
        constructor
        · intro hout
          by_contra hacc
          rw [if_neg (by intro hand; exact hacc hand.2)] at hout
          exact Option.some_ne_none v hout
        · intro hacc
          rw [if_pos ⟨hdt, hacc⟩]
      · intro hdt
        rw [hbody, if_neg (by intro hand; exact absurd hand.1 (not_lt.mpr hdt))]

/-- C6 counterexample: on raw speeds `[100 km/h, 0 km/h]` recorded one
second apart, both adjacent speeds are present (not missing) and the implied
deceleration is `100 * (1000/3600) / 1 ≈ 27.8 m/s² > 10`, so the claim as
stated requires the output at index 1 to be null; but JS treats the speed
value `0` as falsy, so the source passes it through unchanged (`some 0`). -/
theorem filterAccelerationSpikes_zero_speed_counterexample :
    (filterAccelerationSpikes ([some 100, some 0] : List (Option ℚ))
        [some 0, some 1000] 10).getD 1 none = some 0 ∧
    ([some 100, some 0] : List (Option ℚ)).getD 1 none = some 0 ∧
    ([some 100, some 0] : List (Option ℚ)).getD 0 none = some 100 ∧
    (0 : ℚ) < ((1000 : ℚ) - 0) / 1000 ∧
    (10 : ℚ) < |(0 : ℚ) - 100| * (1000 / 3600) / (((1000 : ℚ) - 0) / 1000) := by
  refine ⟨?_, rfl, rfl, by norm_num, by norm_num⟩
  norm_num [filterAccelerationSpikes, numFalsy, List.range_succ]

/-- Concrete instance of the amended C6 at `ℚ`: a genuine 25 m/s² spike
(10 → 100 km/h in one second) is nulled at index 1. -/
theorem filterAccelerationSpikes_amended_witness :
    (filterAccelerationSpikes ([some 10, some 100] : List (Option ℚ))
        [some 0, some 1000] 10).getD 1 none = none := by
  have h := filterAccelerationSpikes_amended
    ([some 10, some 100] : List (Option ℚ)) [some 0, some 1000] (by norm_num)
  have h2 := ((h.2.2 1 (by norm_num) (by norm_num)).2 100 10 1000 0
    rfl rfl rfl rfl (by norm_num) (by norm_num)).1 (by norm_num)
  exact h2.mpr (by norm_num)

/-! ### C5: cleanGPSData -/

theorem filterAccel_getD_cases {α : Type} [LinearOrderedField α]
    (speeds timestamps : List (Option α)) (maxAcc : α) (i : ℕ) :
    (filterAccelerationSpikes speeds timestamps maxAcc).getD i none =
      speeds.getD i none ∨
    (filterAccelerationSpikes speeds timestamps maxAcc).getD i none = none := by
  unfold filterAccelerationSpikes
  by_cases hlen : speeds.length < 2
  · rw [if_pos hlen]
    exact Or.inl rfl
  · rw [if_neg hlen]
    by_cases hin : i < speeds.length
    · rw [getD_range_map _ _ _ hin]
      by_cases h0 : i = 0
      · rw [if_pos h0, h0]
        exact Or.inl rfl
      · rw [if_neg h0]
        by_cases hfalsy : numFalsy (speeds.getD i none) = true ∨
            numFalsy (speeds.getD (i-1) none) = true ∨
            timestamps.getD i none = none ∨ timestamps.getD (i-1) none = none
        · rw [if_pos hfalsy]
          exact Or.inl rfl
        · rw [if_neg hfalsy]
          dsimp only
          split
          · exact Or.inr rfl
          · exact Or.inl rfl
    · right
      apply List.getD_eq_default
      simpa using Nat.le_of_not_lt hin

theorem cleanLoop_spec {α : Type} [LinearOrderedField α]
    (speeds paces : List (Option α)) (flags : List Bool)
    (accel : List (Option α)) (maxSpeed : α) :
    ∀ idxs : List ℕ,
      (cleanLoop speeds paces flags accel maxSpeed idxs).speeds.length =
        idxs.length ∧
      (cleanLoop speeds paces flags accel maxSpeed idxs).paces.length =
        idxs.length ∧
      (∀ k, k < idxs.length →
        (cleanLoop speeds paces flags accel maxSpeed idxs).speeds.getD k none =
          (if flags.getD (idxs.getD k 0) false = false ∨
              accel.getD (idxs.getD k 0) none = none ∨
              speedOutOfRange maxSpeed (speeds.getD (idxs.getD k 0) none) = true
            then none else speeds.getD (idxs.getD k 0) none) ∧
        (cleanLoop speeds paces flags accel maxSpeed idxs).paces.getD k none =
          (if flags.getD (idxs.getD k 0) false = false ∨
              accel.getD (idxs.getD k 0) none = none ∨
              speedOutOfRange maxSpeed (speeds.getD (idxs.getD k 0) none) = true
            then none else paces.getD (idxs.getD k 0) none)) ∧
      (∀ i, i ∈ (cleanLoop speeds paces flags accel maxSpeed idxs).validIndices ↔
        i ∈ idxs ∧ ¬(flags.getD i false = false ∨ accel.getD i none = none ∨
          speedOutOfRange maxSpeed (speeds.getD i none) = true)) := by
  intro idxs
  induction idxs with
  | nil =>
    refine ⟨rfl, rfl, fun k hk => absurd hk (Nat.not_lt_zero k), fun i => ?_⟩
    simp [cleanLoop]
  | cons j rest ih =>
    obtain ⟨ihs, ihp, ihk, ihv⟩ := ih
    have hstep : cleanLoop speeds paces flags accel maxSpeed (j :: rest) =
        ⟨(if flags.getD j false = false ∨ accel.getD j none = none ∨
            speedOutOfRange maxSpeed (speeds.getD j none) = true
           then none else speeds.getD j none) ::
          (cleanLoop speeds paces flags accel maxSpeed rest).speeds,
         (if flags.getD j false = false ∨ accel.getD j none = none ∨
            speedOutOfRange maxSpeed (speeds.getD j none) = true
           then none else paces.getD j none) ::
          (cleanLoop speeds paces flags accel maxSpeed rest).paces,
         if flags.getD j false = false ∨ accel.getD j none = none ∨
            speedOutOfRange maxSpeed (speeds.getD j none) = true
           then (cleanLoop speeds paces flags accel maxSpeed rest).validIndices
           else j :: (cleanLoop speeds paces flags accel maxSpeed rest).validIndices⟩ := by
      by_cases hb1 : flags.getD j false = false ∨ accel.getD j none = none
      · have hcond : flags.getD j false = false ∨ accel.getD j none = none ∨
            speedOutOfRange maxSpeed (speeds.getD j none) = true := by
          rcases hb1 with h | h
          · exact Or.inl h
          · exact Or.inr (Or.inl h)
        rw [show cleanLoop speeds paces flags accel maxSpeed (j :: rest) =
          ⟨none :: (cleanLoop speeds paces flags accel maxSpeed rest).speeds,
           none :: (cleanLoop speeds paces flags accel maxSpeed rest).paces,
           (cleanLoop speeds paces flags accel maxSpeed rest).validIndices⟩ from by
            rw [cleanLoop, if_pos hb1]]
        rw [if_pos hcond, if_pos hcond, if_pos hcond]
      · by_cases hb2 : speedOutOfRange maxSpeed (speeds.getD j none) = true
        · have hcond : flags.getD j false = false ∨ accel.getD j none = none ∨
              speedOutOfRange maxSpeed (speeds.getD j none) = true :=
            Or.inr (Or.inr hb2)
          rw [show cleanLoop speeds paces flags accel maxSpeed (j :: rest) =
            ⟨none :: (cleanLoop speeds paces flags accel maxSpeed rest).speeds,
             none :: (cleanLoop speeds paces flags accel maxSpeed rest).paces,
             (cleanLoop speeds paces flags accel maxSpeed rest).validIndices⟩ from by
              rw [cleanLoop, if_neg hb1, if_pos hb2]]
          rw [if_pos hcond, if_pos hcond, if_pos hcond]
        · have hcond : ¬(flags.getD j false = false ∨ accel.getD j none = none ∨
              speedOutOfRange maxSpeed (speeds.getD j none) = true) := by
            intro h
            rcases h with h | h | h
            · exact hb1 (Or.inl h)
            · exact hb1 (Or.inr h)
            · exact hb2 h
          rw [show cleanLoop speeds paces flags accel maxSpeed (j :: rest) =
            ⟨speeds.getD j none ::
              (cleanLoop speeds paces flags accel maxSpeed rest).speeds,
             paces.getD j none ::
              (cleanLoop speeds paces flags accel maxSpeed rest).paces,
             j :: (cleanLoop speeds paces flags accel maxSpeed rest).validIndices⟩
            from by rw [cleanLoop, if_neg hb1, if_neg (by simpa using hb2)]]
          rw [if_neg hcond, if_neg hcond, if_neg hcond]
    rw [hstep]
    refine ⟨by simpa using ihs, by simpa using ihp, ?_, ?_⟩
    · intro k hk
      cases k with
      | zero => exact ⟨rfl, rfl⟩
      | succ k' =>
        have hk' : k' < rest.length := by simpa using hk
        simpa using ihk k' hk'
    · intro i
      dsimp only
      by_cases hcond : flags.getD j false = false ∨ accel.getD j none = none ∨
          speedOutOfRange maxSpeed (speeds.getD j none) = true
      · rw [if_pos hcond]
        constructor
        · intro h
          obtain ⟨hmem, hnc⟩ := (ihv i).mp h
          exact ⟨List.mem_cons_of_mem _ hmem, hnc⟩
        · intro ⟨hmem, hnc⟩
          rcases List.mem_cons.mp hmem with h | h
          · subst h
            exact absurd hcond hnc
          · exact (ihv i).mpr ⟨h, hnc⟩
      · rw [if_neg hcond]
        constructor
        · intro h
          rcases List.mem_cons.mp h with h | h
          · subst h
            exact ⟨List.mem_cons_self _ _, hcond⟩
          · obtain ⟨hmem, hnc⟩ := (ihv i).mp h
            exact ⟨List.mem_cons_of_mem _ hmem, hnc⟩
        · intro ⟨hmem, hnc⟩
          rcases List.mem_cons.mp hmem with h | h
          · subst h
            exact List.mem_cons_self _ _
          · exact List.mem_cons_of_mem _ ((ihv i).mpr ⟨h, hnc⟩)

theorem getD_range (n k : ℕ) (h : k < n) : (List.range n).getD k 0 = k := by
  rw [List.getD_eq_getElem _ _ (by simpa using h)]
  simp

/-- C5: for inputs whose speeds and paces are null at the same indices,
`cleanGPSData` nulls a point's cleaned speed and pace together, a point is
invalidated exactly when its distance-jump flag is false, or its
acceleration-filtered speed is null, or its raw speed is outside
`[0, maxSpeed]`; `validIndices` contains exactly the indices passing all
three checks, and every valid index has a non-null cleaned speed equal to
the raw speed and lying in `[0, maxSpeed]`. -/
theorem cleanGPSData_invariants {P α : Type} [LinearOrderedField α]
    (dist : P → P → α) (speeds paces : List (Option α)) (coordinates : List P)
    (timestamps : List (Option α)) (maxSpeed : α)
    (hsp : ∀ i, speeds.getD i none = none ↔ paces.getD i none = none) :
    (cleanGPSData dist speeds paces coordinates timestamps maxSpeed).speeds.length
      = speeds.length ∧
    (cleanGPSData dist speeds paces coordinates timestamps maxSpeed).paces.length
      = speeds.length ∧
    (∀ i, i < speeds.length →
      ((cleanGPSData dist speeds paces coordinates timestamps
          maxSpeed).speeds.getD i none = none ↔
        ((filterDistanceJumps dist coordinates timestamps maxSpeed).getD i false
            = false ∨
          (filterAccelerationSpikes speeds timestamps 10).getD i none = none ∨
          speedOutOfRange maxSpeed (speeds.getD i none) = true)) ∧
      ((cleanGPSData dist speeds paces coordinates timestamps
          maxSpeed).speeds.getD i none = none ↔
        (cleanGPSData dist speeds paces coordinates timestamps
          maxSpeed).paces.getD i none = none)) ∧
    (∀ i, i ∈ (cleanGPSData dist speeds paces coordinates timestamps
        maxSpeed).validIndices ↔
      (i < speeds.length ∧
        ¬((filterDistanceJumps dist coordinates timestamps maxSpeed).getD i false
            = false ∨
          (filterAccelerationSpikes speeds timestamps 10).getD i none = none ∨
          speedOutOfRange maxSpeed (speeds.getD i none) = true))) ∧
    (∀ i ∈ (cleanGPSData dist speeds paces coordinates timestamps
        maxSpeed).validIndices, ∃ v,
      speeds.getD i none = some v ∧
      (cleanGPSData dist speeds paces coordinates timestamps
        maxSpeed).speeds.getD i none = some v ∧ 0 ≤ v ∧ v ≤ maxSpeed) := by
  have hout : cleanGPSData dist speeds paces coordinates timestamps maxSpeed =
      cleanLoop speeds paces
        (filterDistanceJumps dist coordinates timestamps maxSpeed)
        (filterAccelerationSpikes speeds timestamps 10) maxSpeed
        (List.range speeds.length) := rfl
  obtain ⟨h1, h2, h3, h4⟩ := cleanLoop_spec speeds paces
    (filterDistanceJumps dist coordinates timestamps maxSpeed)
    (filterAccelerationSpikes speeds timestamps 10) maxSpeed
    (List.range speeds.length)
  rw [hout]
  refine ⟨by simpa using h1, by simpa using h2, ?_, ?_, ?_⟩
  · intro i hi
    obtain ⟨hks, hkp⟩ := h3 i (by simpa using hi)
    rw [getD_range _ _ hi] at hks hkp
    constructor
    · rw [hks]
      constructor
      · intro h
        by_contra hc
        rw [if_neg hc] at h
        rcases filterAccel_getD_cases speeds timestamps 10 i with ha | ha
        · rw [h] at ha
          exact hc (Or.inr (Or.inl ha))
        · exact hc (Or.inr (Or.inl ha))
      · intro h
        rw [if_pos h]
    · rw [hks, hkp]
      by_cases hc : (filterDistanceJumps dist coordinates timestamps
            maxSpeed).getD i false = false ∨
          (filterAccelerationSpikes speeds timestamps 10).getD i none = none ∨
          speedOutOfRange maxSpeed (speeds.getD i none) = true
      · rw [if_pos hc, if_pos hc]
      · rw [if_neg hc, if_neg hc]
        exact hsp i
  · intro i
    have := h4 i
    simpa [List.mem_range] using this
  · intro i hmem
    obtain ⟨hin, hnc⟩ := (h4 i).mp hmem
    rw [List.mem_range] at hin
    obtain ⟨hks, _⟩ := h3 i (by simpa using hin)
    rw [getD_range _ _ hin] at hks
    have hsome : ∃ v, speeds.getD i none = some v := by
      cases hv : speeds.getD i none with
      | none =>
        exfalso
        rcases filterAccel_getD_cases speeds timestamps 10 i with ha | ha
        · rw [hv] at ha
          exact hnc (Or.inr (Or.inl ha))
        · exact hnc (Or.inr (Or.inl ha))
      | some v => exact ⟨v, rfl⟩
    obtain ⟨v, hv⟩ := hsome
    have hrange : ¬(maxSpeed < v) ∧ ¬(v < 0) := by
      have hno : speedOutOfRange maxSpeed (speeds.getD i none) ≠ true := by
        intro h
        exact hnc (Or.inr (Or.inr h))
      rw [hv] at hno
      simpa [speedOutOfRange, not_or] using hno
    refine ⟨v, hv, ?_, not_lt.mp hrange.2, not_lt.mp hrange.1⟩
    rw [hks, if_neg hnc, hv]

/-- Concrete instance of C5 at `ℚ`: a two-point input whose second raw speed
(40 km/h) exceeds `maxSpeed = 30`, so index 1 is invalidated and only index 0
survives with its raw speed. -/
theorem cleanGPSData_invariants_witness :
    (0 ∈ (cleanGPSData (fun (_ _ : ℕ) => (1:ℚ)) [some 10, some 40]
        [some 6, some (3/2)] [0, 1] [some 1000, some 2000] 30).validIndices) ∧
    ¬(1 ∈ (cleanGPSData (fun (_ _ : ℕ) => (1:ℚ)) [some 10, some 40]
        [some 6, some (3/2)] [0, 1] [some 1000, some 2000] 30).validIndices) := by
  have h := cleanGPSData_invariants (fun (_ _ : ℕ) => (1:ℚ))
    [some 10, some 40] [some 6, some (3/2)] [0, 1] [some 1000, some 2000] 30
    (by
      intro i
      match i with
      | 0 => simp
      | 1 => simp
      | (n+2) => simp [List.getD])
  obtain ⟨_, _, _, hvalid, _⟩ := h
  constructor
  · rw [hvalid 0]
    refine ⟨by norm_num, ?_⟩
    intro hc
    rcases hc with hc | hc | hc
    · rw [show (filterDistanceJumps (fun (_ _ : ℕ) => (1:ℚ)) [0, 1]
          [some 1000, some 2000] 30).getD 0 false = true from by
        norm_num [filterDistanceJumps, List.range_succ]] at hc
      exact absurd hc (by simp)
    · rw [show (filterAccelerationSpikes ([some 10, some 40] : List (Option ℚ))
          [some 1000, some 2000] 10).getD 0 none = some 10 from by
        norm_num [filterAccelerationSpikes, numFalsy, List.range_succ]] at hc
      exact Option.some_ne_none _ hc
    · rw [show speedOutOfRange (30:ℚ) (([some 10, some 40] :
          List (Option ℚ)).getD 0 none) = false from by
        norm_num [speedOutOfRange]] at hc
      exact absurd hc (by simp)
  · rw [hvalid 1]
    intro ⟨_, hc⟩
    apply hc
    right; right
    norm_num [speedOutOfRange]

/-! ### C2: getTimeAtDistance -/

theorem bsearchGo_spec {α : Type} [LinearOrderedField α] (ds : List α) (t : α) :
    ∀ fuel low high, low < high → high - low ≤ fuel → high < ds.length →
      ds.getD low 0 ≤ t → t ≤ ds.getD high 0 →
      (bsearchGo ds t fuel low high).2 = (bsearchGo ds t fuel low high).1 + 1 ∧
      low ≤ (bsearchGo ds t fuel low high).1 ∧
      (bsearchGo ds t fuel low high).2 ≤ high ∧
      ds.getD (bsearchGo ds t fuel low high).1 0 ≤ t ∧
      t ≤ ds.getD (bsearchGo ds t fuel low high).2 0 := by
  intro fuel
  induction fuel with
  | zero =>
    intro low high hlh hf _ _ _
    omega
  | succ f ih =>
    intro low high hlh hf hhl hdl hdh
    by_cases hlt : low + 1 < high
    · have hmid1 : low < (low + high) / 2 := by omega
      have hmid2 : (low + high) / 2 < high := by omega
      by_cases hd : ds.getD ((low + high) / 2) 0 ≤ t
      · have hrec : bsearchGo ds t (f+1) low high =
            bsearchGo ds t f ((low + high) / 2) high := by
          rw [bsearchGo, if_pos hlt, if_pos hd]
        rw [hrec]
        obtain ⟨a1, a2, a3, a4, a5⟩ := ih ((low + high) / 2) high hmid2
          (by omega) hhl hd hdh
        exact ⟨a1, le_trans (le_of_lt hmid1) a2, a3, a4, a5⟩
      · have hrec : bsearchGo ds t (f+1) low high =
            bsearchGo ds t f low ((low + high) / 2) := by
          rw [bsearchGo, if_pos hlt, if_neg hd]
        rw [hrec]
        obtain ⟨a1, a2, a3, a4, a5⟩ := ih low ((low + high) / 2) hmid1
          (by omega) (by omega) hdl (le_of_lt (not_le.mp hd))
        exact ⟨a1, a2, le_trans a3 (le_of_lt hmid2), a4, a5⟩
    · have hrec : bsearchGo ds t (f+1) low high = (low, high) := by
        rw [bsearchGo, if_neg hlt]
      rw [hrec]
      exact ⟨by omega, le_refl _, le_refl _, hdl, hdh⟩

/-- C2: for every `DistanceTimeMap` with at least 2 entries,
`getTimeAtDistance` returns null when the target exceeds the last mapped
distance, `0` when the target is at or before the start (and not beyond the
end), the recorded time at an index holding the target distance when the
target equals a recorded distance (with non-decreasing distances), the
linear interpolation of the bracketing times otherwise, and on the map
`{distances:[0,1,2], times:[0,300,600]}` yields `600` at `2`, `450` at
`1.5`, null at `3`, and `0` at a non-positive target. -/
theorem getTimeAtDistance_correct {α : Type} [LinearOrderedField α] :
    (∀ (m : TimeDistanceMap α) (target : α), 2 ≤ m.distances.length →
      (m.distances.getD (m.distances.length - 1) 0 < target →
        getTimeAtDistance m target = none) ∧
      (target ≤ m.distances.getD (m.distances.length - 1) 0 → target ≤ 0 →
        getTimeAtDistance m target = some 0) ∧
      (List.Pairwise (· ≤ ·) m.distances → 0 < target →
        ∀ j, j < m.distances.length → m.distances.getD j 0 = target →
        ∃ j', j' < m.distances.length ∧ m.distances.getD j' 0 = target ∧
          getTimeAtDistance m target = some (m.times.getD j' 0)) ∧
      (List.Pairwise (· ≤ ·) m.distances → 0 < target →
        ∀ j, j + 1 < m.distances.length →
        m.distances.getD j 0 < target → target < m.distances.getD (j+1) 0 →
        getTimeAtDistance m target =
          some (m.times.getD j 0 +
            (target - m.distances.getD j 0) /
              (m.distances.getD (j+1) 0 - m.distances.getD j 0) *
            (m.times.getD (j+1) 0 - m.times.getD j 0)))) ∧
    getTimeAtDistance (⟨[0,1,2],[0,300,600]⟩ : TimeDistanceMap α) 2 =
      some 600 ∧
    getTimeAtDistance (⟨[0,1,2],[0,300,600]⟩ : TimeDistanceMap α) (3/2) =
      some 450 ∧
    getTimeAtDistance (⟨[0,1,2],[0,300,600]⟩ : TimeDistanceMap α) 3 = none ∧
    getTimeAtDistance (⟨[0,1,2],[0,300,600]⟩ : TimeDistanceMap α) (-1) =
      some 0 := by
  refine ⟨?_, ?_, ?_, ?_, ?_⟩
  · intro m target hlen
    have hguard : ¬ m.distances.length < 2 := not_lt.mpr hlen
    refine ⟨?_, ?_, ?_, ?_⟩
    · intro hbig
      unfold getTimeAtDistance
      rw [if_neg hguard, if_pos hbig]
    · intro hle hnp
      unfold getTimeAtDistance
      rw [if_neg hguard, if_neg (not_lt.mpr hle), if_pos hnp]
    · intro hsorted hpos j hj hdj
      have hle : target ≤ m.distances.getD (m.distances.length - 1) 0 := by
        rw [← hdj]
        exact getD_pairwise_le 0 hsorted (by omega) (by omega)
      have hd0 : m.distances.getD 0 0 ≤ target := by
        rw [← hdj]
        exact getD_pairwise_le 0 hsorted (Nat.zero_le j) hj
      obtain ⟨hadj, hlow, hhigh, hdl, hdh⟩ := bsearchGo_spec m.distances target
        m.distances.length 0 (m.distances.length - 1) (by omega) (by omega)
        (by omega) hd0 hle
      have hp2len : (bsearchGo m.distances target m.distances.length 0
          (m.distances.length - 1)).2 < m.distances.length := by omega
      have hp1len : (bsearchGo m.distances target m.distances.length 0
          (m.distances.length - 1)).1 < m.distances.length := by omega
      have hgoal : getTimeAtDistance m target =
          (if m.distances.getD (bsearchGo m.distances target m.distances.length
              0 (m.distances.length - 1)).2 0 =
            m.distances.getD (bsearchGo m.distances target m.distances.length
              0 (m.distances.length - 1)).1 0
          then some (m.times.getD (bsearchGo m.distances target
            m.distances.length 0 (m.distances.length - 1)).1 0)
          else some (m.times.getD (bsearchGo m.distances target
              m.distances.length 0 (m.distances.length - 1)).1 0 +
            (target - m.distances.getD (bsearchGo m.distances target
              m.distances.length 0 (m.distances.length - 1)).1 0) /
              (m.distances.getD (bsearchGo m.distances target
                m.distances.length 0 (m.distances.length - 1)).2 0 -
               m.distances.getD (bsearchGo m.distances target
                m.distances.length 0 (m.distances.length - 1)).1 0) *
            (m.times.getD (bsearchGo m.distances target m.distances.length 0
              (m.distances.length - 1)).2 0 -
             m.times.getD (bsearchGo m.distances target m.distances.length 0
              (m.distances.length - 1)).1 0))) := by
        unfold getTimeAtDistance
        rw [if_neg hguard, if_neg (not_lt.mpr hle), if_neg (not_le.mpr hpos)]
      by_cases hd1 : m.distances.getD (bsearchGo m.distances target
          m.distances.length 0 (m.distances.length - 1)).1 0 = target
      · refine ⟨(bsearchGo m.distances target m.distances.length 0
          (m.distances.length - 1)).1, hp1len, hd1, ?_⟩
        rw [hgoal]
        by_cases heq : m.distances.getD (bsearchGo m.distances target
            m.distances.length 0 (m.distances.length - 1)).2 0 =
          m.distances.getD (bsearchGo m.distances target m.distances.length 0
            (m.distances.length - 1)).1 0
        · rw [if_pos heq]
        · rw [if_neg heq, hd1]
          norm_num
      · have hjge : (bsearchGo m.distances target m.distances.length 0
            (m.distances.length - 1)).2 ≤ j := by
          by_contra hc
          have hjle : j ≤ (bsearchGo m.distances target m.distances.length 0
              (m.distances.length - 1)).1 := by omega
          have hmono : m.distances.getD j 0 ≤ m.distances.getD (bsearchGo
              m.distances target m.distances.length 0
              (m.distances.length - 1)).1 0 :=
            getD_pairwise_le 0 hsorted hjle hp1len
          rw [hdj] at hmono
          exact hd1 (le_antisymm hdl hmono)
        have hd2 : m.distances.getD (bsearchGo m.distances target
            m.distances.length 0 (m.distances.length - 1)).2 0 = target := by
          have h1 : m.distances.getD (bsearchGo m.distances target
              m.distances.length 0 (m.distances.length - 1)).2 0 ≤
              m.distances.getD j 0 :=
            getD_pairwise_le 0 hsorted hjge hj
          rw [hdj] at h1
          exact le_antisymm h1 hdh
        refine ⟨(bsearchGo m.distances target m.distances.length 0
          (m.distances.length - 1)).2, hp2len, hd2, ?_⟩
        rw [hgoal]
        have hne : m.distances.getD (bsearchGo m.distances target
            m.distances.length 0 (m.distances.length - 1)).2 0 ≠
          m.distances.getD (bsearchGo m.distances target m.distances.length 0
            (m.distances.length - 1)).1 0 := by
          rw [hd2]
          intro hc
          exact hd1 hc.symm
        rw [if_neg hne, hd2]
        have hsub : m.distances.getD (bsearchGo m.distances target
            m.distances.length 0 (m.distances.length - 1)).1 0 ≠ target := hd1
        congr 1
        rw [div_self (sub_ne_zero.mpr (Ne.symm hsub))]
        ring
    · intro hsorted hpos j hj1 hdjlt hdjgt
      have hle : target ≤ m.distances.getD (m.distances.length - 1) 0 :=
        le_trans (le_of_lt hdjgt)
          (getD_pairwise_le 0 hsorted (by omega) (by omega))
      have hd0 : m.distances.getD 0 0 ≤ target :=
        le_trans (getD_pairwise_le 0 hsorted (Nat.zero_le j) (by omega))
          (le_of_lt hdjlt)
      obtain ⟨hadj, hlow, hhigh, hdl, hdh⟩ := bsearchGo_spec m.distances target
        m.distances.length 0 (m.distances.length - 1) (by omega) (by omega)
        (by omega) hd0 hle
      have hp1len : (bsearchGo m.distances target m.distances.length 0
          (m.distances.length - 1)).1 < m.distances.length := by omega
      have hj2 : j < (bsearchGo m.distances target m.distances.length 0
          (m.distances.length - 1)).2 := by
        by_contra hc
        have : m.distances.getD (bsearchGo m.distances target
            m.distances.length 0 (m.distances.length - 1)).2 0 ≤
            m.distances.getD j 0 :=
          getD_pairwise_le 0 hsorted (Nat.le_of_not_lt hc) (by omega)
        have := lt_of_le_of_lt (le_trans hdh this) hdjlt
        exact lt_irrefl target this
      have hj3 : (bsearchGo m.distances target m.distances.length 0
          (m.distances.length - 1)).1 ≤ j := by
        by_contra hc
        have : m.distances.getD (j+1) 0 ≤ m.distances.getD (bsearchGo
            m.distances target m.distances.length 0
            (m.distances.length - 1)).1 0 :=
          getD_pairwise_le 0 hsorted (Nat.lt_iff_add_one_le.mp
            (Nat.lt_of_not_le hc)) hp1len
        have := lt_of_lt_of_le hdjgt (le_trans this hdl)
        exact lt_irrefl target this
      have hpj : (bsearchGo m.distances target m.distances.length 0
          (m.distances.length - 1)).1 = j := by omega
      have hpj2 : (bsearchGo m.distances target m.distances.length 0
          (m.distances.length - 1)).2 = j + 1 := by omega
      have hgoal : getTimeAtDistance m target =
          (if m.distances.getD (bsearchGo m.distances target m.distances.length
              0 (m.distances.length - 1)).2 0 =
            m.distances.getD (bsearchGo m.distances target m.distances.length
              0 (m.distances.length - 1)).1 0
          then some (m.times.getD (bsearchGo m.distances target
            m.distances.length 0 (m.distances.length - 1)).1 0)
          else some (m.times.getD (bsearchGo m.distances target
              m.distances.length 0 (m.distances.length - 1)).1 0 +
            (target - m.distances.getD (bsearchGo m.distances target
              m.distances.length 0 (m.distances.length - 1)).1 0) /
              (m.distances.getD (bsearchGo m.distances target
                m.distances.length 0 (m.distances.length - 1)).2 0 -
               m.distances.getD (bsearchGo m.distances target
                m.distances.length 0 (m.distances.length - 1)).1 0) *
            (m.times.getD (bsearchGo m.distances target m.distances.length 0
              (m.distances.length - 1)).2 0 -
             m.times.getD (bsearchGo m.distances target m.distances.length 0
              (m.distances.length - 1)).1 0))) := by
        unfold getTimeAtDistance
        rw [if_neg (not_lt.mpr hlen), if_neg (not_lt.mpr hle),
          if_neg (not_le.mpr hpos)]
      rw [hgoal, hpj, hpj2]
      rw [if_neg (by
        intro hc
        exact lt_irrefl target (lt_trans (lt_of_lt_of_le hdjgt (le_of_eq hc))
          hdjlt))]
  · norm_num [getTimeAtDistance, bsearchGo]
  · norm_num [getTimeAtDistance, bsearchGo]
  · norm_num [getTimeAtDistance]
  · norm_num [getTimeAtDistance]

/-- Concrete instance of C2 at `ℚ`: beyond-the-end lookup is null and the
midpoint interpolation clause yields 450 on the spec's worked example. -/
theorem getTimeAtDistance_correct_witness :
    getTimeAtDistance (⟨[0,1,2],[0,300,600]⟩ : TimeDistanceMap ℚ) 3 = none ∧
    getTimeAtDistance (⟨[0,1,2],[0,300,600]⟩ : TimeDistanceMap ℚ) (3/2) =
      some 450 := by
  constructor
  · exact (getTimeAtDistance_correct.1 ⟨[0,1,2],[0,300,600]⟩ 3
      (by norm_num)).1 (by norm_num)
  · have h := (getTimeAtDistance_correct.1
      (⟨[0,1,2],[0,300,600]⟩ : TimeDistanceMap ℚ) (3/2)
      (by norm_num)).2.2.2 (by norm_num [List.pairwise_cons]) (by norm_num)
      1 (by norm_num) (by norm_num) (by norm_num)
    rw [h]
    norm_num

/-! ### C3: buildTimeDistanceMap invariants -/

theorem pairwise_le_cons_of_le {α : Type} [LinearOrder α] {a b : α}
    {l : List α} (h : List.Pairwise (· ≤ ·) (a :: l)) (hba : b ≤ a) :
    List.Pairwise (· ≤ ·) (b :: l) := by
  rw [List.pairwise_cons] at h ⊢
  exact ⟨fun x hx => le_trans hba (h.1 x hx), h.2⟩

theorem buildEntries_fst_sorted {P α : Type} [LinearOrderedField α]
    (dist : P → P → α) (hd : ∀ p q, 0 ≤ dist p q) (t0 : α) :
    ∀ (cs : List P) (ts : List (Option α)) (prev : P) (cum : α),
      List.Pairwise (· ≤ ·)
        (cum :: (buildEntries dist t0 prev cum cs ts).map Prod.fst) := by
  intro cs
  induction cs with
  | nil =>
    intro ts prev cum
    simp [buildEntries]
  | cons c cs' ih =>
    intro ts prev cum
    have hle : cum ≤ cum + dist prev c := le_add_of_nonneg_right (hd prev c)
    match ts with
    | some t :: ts' =>
      rw [show buildEntries dist t0 prev cum (c :: cs') (some t :: ts') =
        (cum + dist prev c, (t - t0) / 1000) ::
          buildEntries dist t0 c (cum + dist prev c) cs' ts' from rfl]
      rw [List.map_cons]
      have hih := ih ts' c (cum + dist prev c)
      rw [List.pairwise_cons]
      refine ⟨?_, hih⟩
      intro x hx
      rcases List.mem_cons.mp hx with h | h
      · rw [h]; exact hle
      · exact le_trans hle ((List.pairwise_cons.mp hih).1 x h)
    | none :: ts' =>
      rw [show buildEntries dist t0 prev cum (c :: cs') (none :: ts') =
        buildEntries dist t0 c (cum + dist prev c) cs' ts' from rfl]
      exact pairwise_le_cons_of_le (ih ts' c (cum + dist prev c)) hle
    | [] =>
      rw [show buildEntries dist t0 prev cum (c :: cs') [] =
        buildEntries dist t0 c (cum + dist prev c) cs' [] from rfl]
      exact pairwise_le_cons_of_le (ih [] c (cum + dist prev c)) hle

theorem buildEntries_snd {P α : Type} [LinearOrderedField α]
    (dist : P → P → α) (t0 : α) :
    ∀ (cs : List P) (ts : List (Option α)) (prev : P) (cum : α),
      (buildEntries dist t0 prev cum cs ts).map Prod.snd =
        ((ts.take cs.length).filterMap id).map (fun t => (t - t0) / 1000) := by
  intro cs
  induction cs with
  | nil =>
    intro ts prev cum
    simp [buildEntries]
  | cons c cs' ih =>
    intro ts prev cum
    match ts with
    | some t :: ts' =>
      rw [show buildEntries dist t0 prev cum (c :: cs') (some t :: ts') =
        (cum + dist prev c, (t - t0) / 1000) ::
          buildEntries dist t0 c (cum + dist prev c) cs' ts' from rfl]
      rw [List.map_cons, ih ts' c (cum + dist prev c)]
      simp [List.filterMap_cons]
    | none :: ts' =>
      rw [show buildEntries dist t0 prev cum (c :: cs') (none :: ts') =
        buildEntries dist t0 c (cum + dist prev c) cs' ts' from rfl]
      rw [ih ts' c (cum + dist prev c)]
      simp [List.filterMap_cons]
    | [] =>
      rw [show buildEntries dist t0 prev cum (c :: cs') [] =
        buildEntries dist t0 c (cum + dist prev c) cs' [] from rfl]
      rw [ih [] c (cum + dist prev c)]
      simp

/-- C3: for every route whose non-null timestamps are non-decreasing and
every non-negative distance function (such as the haversine distance), when
`buildTimeDistanceMap` returns a map, its distances and times arrays have
equal length at least 2, both start at 0, and both are non-decreasing — the
monotonicity assumed by the binary searches — even when consecutive
coordinates are identical (then `dist` contributes a zero increment, which
the non-negativity hypothesis admits). -/
theorem buildTimeDistanceMap_invariants {P α : Type} [LinearOrderedField α]
    (dist : P → P → α) (route : Route P α) (m : TimeDistanceMap α)
    (hd : ∀ p q, 0 ≤ dist p q)
    (hchron : List.Pairwise (· ≤ ·) (route.timestamps.filterMap id))
    (hbuild : buildTimeDistanceMap dist route = some m) :
    m.distances.length = m.times.length ∧
    2 ≤ m.distances.length ∧
    m.distances.getD 0 0 = 0 ∧
    m.times.getD 0 0 = 0 ∧
    List.Pairwise (· ≤ ·) m.distances ∧
    List.Pairwise (· ≤ ·) m.times := by
  unfold buildTimeDistanceMap at hbuild
  cases hts : route.timestamps with
  | nil =>
    rw [hts] at hbuild
    cases route.coordinates <;> simp at hbuild
  | cons t0opt ts =>
    cases t0opt with
    | none =>
      rw [hts] at hbuild
      cases route.coordinates <;> simp at hbuild
    | some t0 =>
      rw [hts] at hbuild
      cases hcs : route.coordinates with
      | nil =>
        rw [hcs] at hbuild
        simp at hbuild
      | cons c0 cs =>
        rw [hcs] at hbuild
        simp only at hbuild
        by_cases h0 : t0 = 0
        · rw [if_pos h0] at hbuild
          exact absurd hbuild (Option.noConfusion)
        · rw [if_neg h0] at hbuild
          by_cases hemp : (buildEntries dist t0 c0 0 cs ts).isEmpty
          · rw [if_pos hemp] at hbuild
            exact absurd hbuild (Option.noConfusion)
          · rw [if_neg hemp] at hbuild
            have hm := Option.some.inj hbuild
            have hne : buildEntries dist t0 c0 0 cs ts ≠ [] := by
              intro h
              rw [h] at hemp
              exact hemp rfl
            have hlen : 1 ≤ (buildEntries dist t0 c0 0 cs ts).length :=
              Nat.one_le_iff_ne_zero.mpr
                (fun h => hne (List.eq_nil_of_length_eq_zero h))
            have hts' : List.Pairwise (· ≤ ·) (t0 :: ts.filterMap id) := by
              rw [hts] at hchron
              simpa [List.filterMap_cons] using hchron
            have htail : List.Pairwise (· ≤ ·) (ts.filterMap id) :=
              (List.pairwise_cons.mp hts').2
            have hbound : ∀ x ∈ ts.filterMap id, t0 ≤ x :=
              (List.pairwise_cons.mp hts').1
            have hsnd := buildEntries_snd dist t0 cs ts c0 0
            have htsub : List.Sublist ((ts.take cs.length).filterMap id)
                (ts.filterMap id) :=
              List.Sublist.filterMap _ (List.take_sublist _ _)
            have htakechron : List.Pairwise (· ≤ ·)
                ((ts.take cs.length).filterMap id) :=
              List.Pairwise.sublist htsub htail
            have htimes : List.Pairwise (· ≤ ·)
                ((buildEntries dist t0 c0 0 cs ts).map Prod.snd) := by
              rw [hsnd, List.pairwise_map]
              refine htakechron.imp ?_
              intro a b hab
              have h1000 : (0:α) < 1000 := by norm_num
              exact (div_le_div_right h1000).mpr (by linarith)
            have hbnd : ∀ x ∈ (buildEntries dist t0 c0 0 cs ts).map Prod.snd,
                (0:α) ≤ x := by
              intro x hx
              rw [hsnd] at hx
              obtain ⟨t, htmem, rfl⟩ := List.mem_map.mp hx
              have ht0le : t0 ≤ t := hbound t (htsub.subset htmem)
              exact div_nonneg (by linarith) (by norm_num)
            rw [← hm]
            refine ⟨by simp, by simp; omega, rfl, rfl, ?_, ?_⟩
            · exact buildEntries_fst_sorted dist hd t0 cs ts c0 0
            · rw [List.pairwise_cons]
              exact ⟨hbnd, htimes⟩

/-- Concrete instance of C3 at `ℚ`: a two-point route one second and one
unit of distance apart builds the map `{distances:[0,1], times:[0,1]}`,
whose invariants the theorem instantiates. -/
theorem buildTimeDistanceMap_invariants_witness :
    2 ≤ ((⟨[0,1],[0,1]⟩ : TimeDistanceMap ℚ)).distances.length ∧
    List.Pairwise (· ≤ ·) ((⟨[0,1],[0,1]⟩ : TimeDistanceMap ℚ)).distances ∧
    List.Pairwise (· ≤ ·) ((⟨[0,1],[0,1]⟩ : TimeDistanceMap ℚ)).times := by
  have h := buildTimeDistanceMap_invariants (fun (_ _ : ℕ) => (1:ℚ))
    ⟨[0,1], [some 1000, some 2000], [], []⟩ ⟨[0,1],[0,1]⟩
    (fun _ _ => zero_le_one)
    (by norm_num [List.filterMap_cons, List.pairwise_cons])
    (by norm_num [buildTimeDistanceMap, buildEntries])
  exact ⟨h.2.1, h.2.2.2.2.1, h.2.2.2.2.2⟩

/-! ### C7: calculateSplits -/

theorem calculateSplitPace_null {P α : Type} [LinearOrderedField α]
    (dist : P → P → α) (route : Route P α) (s e : ℕ) :
    (route.timestamps.getD s none = none ∨ route.timestamps.getD e none = none →
      calculateSplitPace dist route s e = none) ∧
    (segmentDistance dist route.coordinates s e ≤ 0 →
      calculateSplitPace dist route s e = none) ∧
    (∀ tS tE, route.timestamps.getD s none = some tS →
      route.timestamps.getD e none = some tE →
      ¬(0 < ((tE - tS) / 1000 / 60) / segmentDistance dist route.coordinates s e ∧
        ((tE - tS) / 1000 / 60) / segmentDistance dist route.coordinates s e < 30) →
      calculateSplitPace dist route s e = none) := by
  by_cases hse : e ≤ s
  · have hnull : calculateSplitPace dist route s e = none := by
      unfold calculateSplitPace
      rw [if_pos hse]
    exact ⟨fun _ => hnull, fun _ => hnull, fun _ _ _ _ _ => hnull⟩
  · have hdef : calculateSplitPace dist route s e =
        (match route.timestamps.getD s none, route.timestamps.getD e none with
        | some startTime, some endTime =>
          if (endTime - startTime) / 1000 ≤ 0 then none
          else
            if segmentDistance dist route.coordinates s e ≤ 0 then none
            else
              if 0 < ((endTime - startTime) / 1000 / 60) /
                    segmentDistance dist route.coordinates s e ∧
                  ((endTime - startTime) / 1000 / 60) /
                    segmentDistance dist route.coordinates s e < 30
              then some (((endTime - startTime) / 1000 / 60) /
                segmentDistance dist route.coordinates s e)
              else none
        | _, _ => none) := by
      unfold calculateSplitPace
      rw [if_neg hse]
    refine ⟨?_, ?_, ?_⟩
    · intro h
      rw [hdef]
      rcases h with h | h
      · rw [h]
      · rw [h]
        cases route.timestamps.getD s none with
        | none => rfl
        | some t => rfl
    · intro hseg
      rw [hdef]
      cases hs' : route.timestamps.getD s none with
      | none => rfl
      | some tS =>
        cases he' : route.timestamps.getD e none with
        | none => rfl
        | some tE =>
          simp only
          by_cases hdur : (tE - tS) / 1000 ≤ 0
          · rw [if_pos hdur]
          · rw [if_neg hdur, if_pos hseg]
    · intro tS tE hs' he' hrange
      rw [hdef, hs', he']
      simp only
      by_cases hdur : (tE - tS) / 1000 ≤ 0
      · rw [if_pos hdur]
      · rw [if_neg hdur]
        by_cases hseg : segmentDistance dist route.coordinates s e ≤ 0
        · rw [if_pos hseg]
        · rw [if_neg hseg, if_neg hrange]

/-- C7: for every route with at least 2 coordinates and every positive split
distance, `calculateSplits` produces `⌈total / splitKm⌉` windows in which
window `k` spans `[k * splitKm, min((k+1) * splitKm, total)]`, every window
except the last has distance exactly `splitKm`, the last window ends at the
total distance, a window's `isPartial` flag is set exactly when its distance
is below 90% of `splitKm`, and a split's pace is null whenever a boundary
timestamp is missing, the window's point-to-point segment distance is not
positive, or the computed pace lies outside the open interval `(0, 30)`
min/km. -/
theorem calculateSplits_correct {P α : Type} [LinearOrderedField α]
    [FloorRing α] (dist : P → P → α) (route : Route P α) (splitDistanceKm : α)
    (hcoords : 2 ≤ route.coordinates.length) (hs : 0 < splitDistanceKm) :
    (calculateSplits dist route splitDistanceKm).length =
      (⌈(cumulativeDistances dist route.coordinates).getD
        ((cumulativeDistances dist route.coordinates).length - 1) 0 /
        splitDistanceKm⌉).toNat ∧
    ∀ k, k < (⌈(cumulativeDistances dist route.coordinates).getD
        ((cumulativeDistances dist route.coordinates).length - 1) 0 /
        splitDistanceKm⌉).toNat →
      ∀ sp : Split α,
        (calculateSplits dist route splitDistanceKm).getD k
          ⟨0, 0, 0, 0, false, none, 0, none⟩ = sp →
        sp.number = k + 1 ∧
        sp.startKm = (k : α) * splitDistanceKm ∧
        sp.endKm = min ((k : α) * splitDistanceKm + splitDistanceKm)
          ((cumulativeDistances dist route.coordinates).getD
            ((cumulativeDistances dist route.coordinates).length - 1) 0) ∧
        sp.distance = sp.endKm - sp.startKm ∧
        (k + 1 < (⌈(cumulativeDistances dist route.coordinates).getD
            ((cumulativeDistances dist route.coordinates).length - 1) 0 /
            splitDistanceKm⌉).toNat →
          sp.distance = splitDistanceKm) ∧
        (k + 1 = (⌈(cumulativeDistances dist route.coordinates).getD
            ((cumulativeDistances dist route.coordinates).length - 1) 0 /
            splitDistanceKm⌉).toNat →
          sp.endKm = (cumulativeDistances dist route.coordinates).getD
            ((cumulativeDistances dist route.coordinates).length - 1) 0) ∧
        (sp.isPartialSplit = true ↔
          sp.distance < splitDistanceKm * (9/10)) ∧
        sp.pace = calculateSplitPace dist route
          (findIndexAtDistance (cumulativeDistances dist route.coordinates)
            sp.startKm)
          (findIndexAtDistance (cumulativeDistances dist route.coordinates)
            sp.endKm) := by
  have hguard1 : ¬ route.coordinates.length < 2 := not_lt.mpr hcoords
  have hguard2 : ¬ splitDistanceKm ≤ 0 := not_le.mpr hs
  have hdef : calculateSplits dist route splitDistanceKm =
      (List.range ((⌈(cumulativeDistances dist route.coordinates).getD
          ((cumulativeDistances dist route.coordinates).length - 1) 0 /
          splitDistanceKm⌉).toNat)).map (fun (k : ℕ) =>
        ⟨(k + 1 : ℕ), (k : α) * splitDistanceKm,
          min ((k : α) * splitDistanceKm + splitDistanceKm)
            ((cumulativeDistances dist route.coordinates).getD
              ((cumulativeDistances dist route.coordinates).length - 1) 0),
          min ((k : α) * splitDistanceKm + splitDistanceKm)
            ((cumulativeDistances dist route.coordinates).getD
              ((cumulativeDistances dist route.coordinates).length - 1) 0) -
            (k : α) * splitDistanceKm,
          decide (min ((k : α) * splitDistanceKm + splitDistanceKm)
            ((cumulativeDistances dist route.coordinates).getD
              ((cumulativeDistances dist route.coordinates).length - 1) 0) -
            (k : α) * splitDistanceKm < splitDistanceKm * (9/10)),
          calculateSplitPace dist route
            (findIndexAtDistance (cumulativeDistances dist route.coordinates)
              ((k : α) * splitDistanceKm))
            (findIndexAtDistance (cumulativeDistances dist route.coordinates)
              (min ((k : α) * splitDistanceKm + splitDistanceKm)
                ((cumulativeDistances dist route.coordinates).getD
                  ((cumulativeDistances dist route.coordinates).length - 1) 0))),
          calculateSplitElevGain route.elevations
            (findIndexAtDistance (cumulativeDistances dist route.coordinates)
              ((k : α) * splitDistanceKm))
            (findIndexAtDistance (cumulativeDistances dist route.coordinates)
              (min ((k : α) * splitDistanceKm + splitDistanceKm)
                ((cumulativeDistances dist route.coordinates).getD
                  ((cumulativeDistances dist route.coordinates).length - 1) 0))),
          calculateSplitAvg route.heartRates
            (findIndexAtDistance (cumulativeDistances dist route.coordinates)
              ((k : α) * splitDistanceKm))
            (findIndexAtDistance (cumulativeDistances dist route.coordinates)
              (min ((k : α) * splitDistanceKm + splitDistanceKm)
                ((cumulativeDistances dist route.coordinates).getD
                  ((cumulativeDistances dist route.coordinates).length - 1) 0)))⟩) := by
    unfold calculateSplits
    rw [if_neg hguard1, if_neg hguard2]
  constructor
  · rw [hdef]
    simp
  · intro k hk sp hsp
    rw [hdef, getD_range_map _ _ _ hk] at hsp
    subst hsp
    have hcount : (0:ℤ) < ⌈(cumulativeDistances dist route.coordinates).getD
        ((cumulativeDistances dist route.coordinates).length - 1) 0 /
        splitDistanceKm⌉ := by
      by_contra hc
      have : (⌈(cumulativeDistances dist route.coordinates).getD
          ((cumulativeDistances dist route.coordinates).length - 1) 0 /
          splitDistanceKm⌉).toNat = 0 := by
        exact Int.toNat_of_nonpos (not_lt.mp hc)
      omega
    refine ⟨rfl, rfl, rfl, rfl, ?_, ?_, by simp, rfl⟩
    · intro hklt
      have hz : ((k:ℤ) + 1) < ⌈(cumulativeDistances dist route.coordinates).getD
          ((cumulativeDistances dist route.coordinates).length - 1) 0 /
          splitDistanceKm⌉ := by
        have := Int.lt_toNat.mp (by exact_mod_cast hklt)
        exact_mod_cast this
      have hlt : ((k:α) + 1) < (cumulativeDistances dist route.coordinates).getD
          ((cumulativeDistances dist route.coordinates).length - 1) 0 /
          splitDistanceKm := by
        have := Int.lt_ceil.mp hz
        exact_mod_cast this
      have hmul : (k:α) * splitDistanceKm + splitDistanceKm <
          (cumulativeDistances dist route.coordinates).getD
            ((cumulativeDistances dist route.coordinates).length - 1) 0 := by
        have := (lt_div_iff hs).mp hlt
        linarith [this]
      simp only
      rw [min_eq_left (le_of_lt hmul)]
      ring
    · intro hkeq
      have hz : ⌈(cumulativeDistances dist route.coordinates).getD
          ((cumulativeDistances dist route.coordinates).length - 1) 0 /
          splitDistanceKm⌉ ≤ (k:ℤ) + 1 := by
        rw [show ((k:ℤ) + 1) = ((k + 1 : ℕ) : ℤ) by push_cast; ring]
        rw [hkeq]
        exact Int.self_le_toNat _
      have hle : (cumulativeDistances dist route.coordinates).getD
          ((cumulativeDistances dist route.coordinates).length - 1) 0 /
          splitDistanceKm ≤ (k:α) + 1 := by
        have := Int.ceil_le.mp hz
        exact_mod_cast this
      have hmul : (cumulativeDistances dist route.coordinates).getD
          ((cumulativeDistances dist route.coordinates).length - 1) 0 ≤
          (k:α) * splitDistanceKm + splitDistanceKm := by
        have := (div_le_iff hs).mp hle
        linarith [this]
      simp only
      rw [min_eq_right hmul]

/-- Concrete instance of C7 at `ℚ`: on a 3-point route with unit hop
distances and 1 km splits, the first of the two windows has distance exactly
1 km. -/
theorem calculateSplits_correct_witness :
    ((calculateSplits (fun (_ _ : ℕ) => (1:ℚ))
        ⟨[0,1,2], [], [], []⟩ 1).getD 0
      ⟨0, 0, 0, 0, false, none, 0, none⟩).distance = 1 := by
  have h := calculateSplits_correct (fun (_ _ : ℕ) => (1:ℚ))
    ⟨[0,1,2], [], [], []⟩ 1 (by norm_num) (by norm_num)
  have h0 := h.2 0 (by norm_num [cumulativeDistances, cumAux])
    ((calculateSplits (fun (_ _ : ℕ) => (1:ℚ)) ⟨[0,1,2], [], [], []⟩ 1).getD 0
      ⟨0, 0, 0, 0, false, none, 0, none⟩) rfl
  exact h0.2.2.2.2.1 (by norm_num [cumulativeDistances, cumAux])

/-! ### C1: calculateTimeGaps -/

theorem timeGapCompMaps_mem {P α : Type} [LinearOrderedField α]
    (dist : P → P → α) (comparisonRoutes : List (Route P α))
    (r : Route P α) (m : TimeDistanceMap α) :
    (r, m) ∈ timeGapCompMaps dist comparisonRoutes ↔
      r ∈ comparisonRoutes ∧ buildTimeDistanceMap dist r = some m := by
  unfold timeGapCompMaps
  rw [List.mem_filterMap]
  constructor
  · rintro ⟨a, ha, hfa⟩
    cases hb : buildTimeDistanceMap dist a with
    | none =>
      rw [hb] at hfa
      cases hfa
    | some m' =>
      rw [hb] at hfa
      have h2 := Option.some.inj hfa
      have hr : a = r := congrArg Prod.fst h2
      have hm : m' = m := congrArg Prod.snd h2
      subst hr
      subst hm
      exact ⟨ha, hb⟩
  · rintro ⟨hmem, hb⟩
    exact ⟨r, hmem, by rw [hb]⟩

theorem timeGapMaxDist_foldl {P α : Type} [LinearOrderedField α]
    (refMap : TimeDistanceMap α)
    (compMaps : List (Route P α × TimeDistanceMap α)) :
    timeGapMaxDist refMap compMaps =
      (compMaps.map (fun c => lastDistance c.2)).foldl min
        (lastDistance refMap) := by
  unfold timeGapMaxDist
  rw [List.foldl_map]

theorem timeGapMaxDist_le_ref {P α : Type} [LinearOrderedField α]
    (refMap : TimeDistanceMap α)
    (compMaps : List (Route P α × TimeDistanceMap α)) :
    timeGapMaxDist refMap compMaps ≤ lastDistance refMap := by
  rw [timeGapMaxDist_foldl]
  exact foldl_min_le_init _ _

theorem timeGapMaxDist_le_mem {P α : Type} [LinearOrderedField α]
    (refMap : TimeDistanceMap α)
    (compMaps : List (Route P α × TimeDistanceMap α))
    (c : Route P α × TimeDistanceMap α) (hc : c ∈ compMaps) :
    timeGapMaxDist refMap compMaps ≤ lastDistance c.2 := by
  rw [timeGapMaxDist_foldl]
  exact foldl_min_le_mem _ _ _ (List.mem_map.mpr ⟨c, hc, rfl⟩)

theorem timeGapMaxDist_mem {P α : Type} [LinearOrderedField α]
    (refMap : TimeDistanceMap α)
    (compMaps : List (Route P α × TimeDistanceMap α)) :
    timeGapMaxDist refMap compMaps = lastDistance refMap ∨
      ∃ c ∈ compMaps, timeGapMaxDist refMap compMaps = lastDistance c.2 := by
  rw [timeGapMaxDist_foldl]
  rcases foldl_min_mem (compMaps.map (fun c => lastDistance c.2))
      (lastDistance refMap) with h | h
  · exact Or.inl h
  · obtain ⟨c, hc, hceq⟩ := List.mem_map.mp h
    exact Or.inr ⟨c, hc, hceq.symm⟩

theorem timeGapPointAt_some {P α : Type} [LinearOrderedField α]
    (refMap : TimeDistanceMap α)
    (compMaps : List (Route P α × TimeDistanceMap α)) (sampleInterval : α)
    (k : ℕ) (p : TimeGapPoint P α)
    (h : timeGapPointAt refMap compMaps sampleInterval k = some p) :
    p.distance = (k : α) * sampleInterval ∧
    getTimeAtDistance refMap ((k : α) * sampleInterval) =
      some p.referenceTime ∧
    p.comparisons ≠ [] ∧
    ∀ c ∈ p.comparisons,
      (∃ m, (c.route, m) ∈ compMaps ∧
        getTimeAtDistance m ((k : α) * sampleInterval) = some c.time) ∧
      c.gap = c.time - p.referenceTime := by
  unfold timeGapPointAt at h
  cases hrt : getTimeAtDistance refMap ((k : α) * sampleInterval) with
  | none =>
    rw [hrt] at h
    cases h
  | some rt =>
    rw [hrt] at h
    dsimp only at h
    by_cases hemp : (compMaps.filterMap (fun c =>
        match getTimeAtDistance c.2 ((k : α) * sampleInterval) with
        | some compTime =>
          some (⟨c.1, compTime, compTime - rt⟩ : TimeGapComparison P α)
        | none => none)).isEmpty
    · rw [if_pos hemp] at h
      cases h
    · rw [if_neg hemp] at h
      have hp := Option.some.inj h
      rw [← hp]
      refine ⟨rfl, by dsimp only, ?_, ?_⟩
      · intro hnil
        dsimp only at hnil
        rw [hnil] at hemp
        exact hemp rfl
      · intro c hc
        dsimp only at hc
        obtain ⟨a, ha, hfa⟩ := List.mem_filterMap.mp hc
        cases hgt : getTimeAtDistance a.2 ((k : α) * sampleInterval) with
        | none =>
          rw [hgt] at hfa
          cases hfa
        | some t =>
          rw [hgt] at hfa
          have hceq := Option.some.inj hfa
          rw [← hceq]
          exact ⟨⟨a.2, by rw [Prod.mk.eta]; exact ha, hgt⟩, rfl⟩

theorem timeGapPointAt_complete {P α : Type} [LinearOrderedField α]
    (refMap : TimeDistanceMap α)
    (compMaps : List (Route P α × TimeDistanceMap α)) (sampleInterval : α)
    (k : ℕ) (rt : α)
    (hrt : getTimeAtDistance refMap ((k : α) * sampleInterval) = some rt)
    (hcomp : ∃ pr ∈ compMaps,
      getTimeAtDistance pr.2 ((k : α) * sampleInterval) ≠ none) :
    ∃ p, timeGapPointAt refMap compMaps sampleInterval k = some p ∧
      p.distance = (k : α) * sampleInterval := by
  obtain ⟨pr, hpr, hne⟩ := hcomp
  unfold timeGapPointAt
  rw [hrt]
  dsimp only
  have hcompne : ¬ (compMaps.filterMap (fun c =>
      match getTimeAtDistance c.2 ((k : α) * sampleInterval) with
      | some compTime =>
        some (⟨c.1, compTime, compTime - rt⟩ : TimeGapComparison P α)
      | none => none)).isEmpty := by
    cases hgt : getTimeAtDistance pr.2 ((k : α) * sampleInterval) with
    | none => exact absurd hgt hne
    | some t =>
      have hmem : (⟨pr.1, t, t - rt⟩ : TimeGapComparison P α) ∈
          compMaps.filterMap (fun c =>
            match getTimeAtDistance c.2 ((k : α) * sampleInterval) with
            | some compTime =>
              some (⟨c.1, compTime, compTime - rt⟩ : TimeGapComparison P α)
            | none => none) :=
        List.mem_filterMap.mpr ⟨pr, hpr, by rw [hgt]⟩
      intro hemp
      rw [List.isEmpty_iff.mp hemp] at hmem
      exact List.not_mem_nil _ hmem
  rw [if_neg hcompne]
  exact ⟨_, rfl, rfl⟩

/-- C1: `calculateTimeGaps` returns null exactly when the reference route's
time-distance map cannot be built or no comparison route's map can be built;
otherwise the result's `maxDistance` is the minimum over the reference map
and every successfully built comparison map of that map's final mapped
distance, every recorded comparison entry at a sampled distance has
`gap = comparisonTime - referenceTime` for the interpolated times at that
distance, samples with no valid comparison are omitted (every recorded
point has a non-empty comparison list), and every sample with a valid
reference time and at least one valid comparison time is recorded. -/
theorem calculateTimeGaps_correct {P α : Type} [LinearOrderedField α]
    [FloorRing α] (dist : P → P → α) (referenceRoute : Route P α)
    (comparisonRoutes : List (Route P α)) (sampleInterval : α) :
    (calculateTimeGaps dist referenceRoute comparisonRoutes sampleInterval =
        none ↔
      (buildTimeDistanceMap dist referenceRoute = none ∨
        ∀ r ∈ comparisonRoutes, buildTimeDistanceMap dist r = none)) ∧
    (∀ (res : TimeGapResult P α) (refMap : TimeDistanceMap α),
      calculateTimeGaps dist referenceRoute comparisonRoutes sampleInterval =
        some res →
      buildTimeDistanceMap dist referenceRoute = some refMap →
      ((res.maxDistance = lastDistance refMap ∨
        ∃ r ∈ comparisonRoutes, ∃ m, buildTimeDistanceMap dist r = some m ∧
          res.maxDistance = lastDistance m) ∧
      res.maxDistance ≤ lastDistance refMap ∧
      (∀ r ∈ comparisonRoutes, ∀ m, buildTimeDistanceMap dist r = some m →
        res.maxDistance ≤ lastDistance m) ∧
      (∀ p ∈ res.gaps,
        getTimeAtDistance refMap p.distance = some p.referenceTime ∧
        p.comparisons ≠ [] ∧
        ∀ c ∈ p.comparisons,
          (∃ m, buildTimeDistanceMap dist c.route = some m ∧
            getTimeAtDistance m p.distance = some c.time) ∧
          c.gap = c.time - p.referenceTime) ∧
      (0 < sampleInterval →
        ∀ k : ℕ, (k : α) * sampleInterval ≤ res.maxDistance →
        ∀ rt, getTimeAtDistance refMap ((k : α) * sampleInterval) = some rt →
        (∃ r ∈ comparisonRoutes, ∃ m, buildTimeDistanceMap dist r = some m ∧
          getTimeAtDistance m ((k : α) * sampleInterval) ≠ none) →
        ∃ p ∈ res.gaps, p.distance = (k : α) * sampleInterval))) := by
  constructor
  · cases href : buildTimeDistanceMap dist referenceRoute with
    | none =>
      have hnone : calculateTimeGaps dist referenceRoute comparisonRoutes
          sampleInterval = none := by
        unfold calculateTimeGaps
        rw [href]
      rw [hnone]
      exact ⟨fun _ => Or.inl rfl, fun _ => rfl⟩
    | some refMap =>
      by_cases hemp : (timeGapCompMaps dist comparisonRoutes).isEmpty
      · have hnone : calculateTimeGaps dist referenceRoute comparisonRoutes
            sampleInterval = none := by
          unfold calculateTimeGaps
          rw [href]
          dsimp only
          rw [if_pos hemp]
        rw [hnone]
        constructor
        · intro _
          right
          intro r hr
          cases hb : buildTimeDistanceMap dist r with
          | none => rfl
          | some m =>
            exfalso
            have hmem : (r, m) ∈ timeGapCompMaps dist comparisonRoutes :=
              (timeGapCompMaps_mem dist comparisonRoutes r m).mpr ⟨hr, hb⟩
            rw [List.isEmpty_iff.mp hemp] at hmem
            exact List.not_mem_nil _ hmem
        · intro _
          rfl
      · have hsome : calculateTimeGaps dist referenceRoute comparisonRoutes
            sampleInterval =
            some ⟨referenceRoute,
              (List.range (timeGapCount (timeGapMaxDist refMap
                (timeGapCompMaps dist comparisonRoutes)) sampleInterval)).filterMap
                (timeGapPointAt refMap (timeGapCompMaps dist comparisonRoutes)
                  sampleInterval),
              timeGapMaxDist refMap (timeGapCompMaps dist comparisonRoutes)⟩ := by
          unfold calculateTimeGaps
          rw [href]
          dsimp only
          rw [if_neg hemp]
        rw [hsome]
        constructor
        · intro h
          cases h
        · intro h
          exfalso
          rcases h with h | h
          · cases h
          · have hnil : timeGapCompMaps dist comparisonRoutes = [] := by
              cases hcm : timeGapCompMaps dist comparisonRoutes with
              | nil => rfl
              | cons c rest =>
                exfalso
                have hcmem : c ∈ timeGapCompMaps dist comparisonRoutes := by
                  rw [hcm]
                  exact List.mem_cons_self _ _
                obtain ⟨hmem, hb⟩ := (timeGapCompMaps_mem dist
                  comparisonRoutes c.1 c.2).mp (by rw [Prod.mk.eta]; exact hcmem)
                rw [h c.1 hmem] at hb
                cases hb
            rw [hnil] at hemp
            exact hemp rfl
  · intro res refMap hres href
    have hsome : calculateTimeGaps dist referenceRoute comparisonRoutes
        sampleInterval =
        (if (timeGapCompMaps dist comparisonRoutes).isEmpty then none
         else some ⟨referenceRoute,
          (List.range (timeGapCount (timeGapMaxDist refMap
            (timeGapCompMaps dist comparisonRoutes)) sampleInterval)).filterMap
            (timeGapPointAt refMap (timeGapCompMaps dist comparisonRoutes)
              sampleInterval),
          timeGapMaxDist refMap (timeGapCompMaps dist comparisonRoutes)⟩) := by
      unfold calculateTimeGaps
      rw [href]
    rw [hsome] at hres
    by_cases hemp : (timeGapCompMaps dist comparisonRoutes).isEmpty
    · rw [if_pos hemp] at hres
      cases hres
    · rw [if_neg hemp] at hres
      have hres' := Option.some.inj hres
      rw [← hres']
      dsimp only
      refine ⟨?_, timeGapMaxDist_le_ref refMap _, ?_, ?_, ?_⟩
      · rcases timeGapMaxDist_mem refMap
            (timeGapCompMaps dist comparisonRoutes) with h | ⟨c, hc, hceq⟩
        · exact Or.inl h
        · obtain ⟨hmem, hb⟩ := (timeGapCompMaps_mem dist comparisonRoutes
            c.1 c.2).mp (by rw [Prod.mk.eta]; exact hc)
          exact Or.inr ⟨c.1, hmem, c.2, hb, hceq⟩
      · intro r hr m hb
        exact timeGapMaxDist_le_mem refMap _ (r, m)
          ((timeGapCompMaps_mem dist comparisonRoutes r m).mpr ⟨hr, hb⟩)
      · intro p hp
        obtain ⟨k, _, hpt⟩ := List.mem_filterMap.mp hp
        obtain ⟨hpd, hprt, hpne, hpc⟩ := timeGapPointAt_some refMap _
          sampleInterval k p hpt
        refine ⟨by rw [hpd]; exact hprt, hpne, ?_⟩
        intro c hc
        obtain ⟨⟨m, hmmem, hmt⟩, hgap⟩ := hpc c hc
        obtain ⟨_, hb⟩ := (timeGapCompMaps_mem dist comparisonRoutes
          c.route m).mp hmmem
        exact ⟨⟨m, hb, by rw [hpd]; exact hmt⟩, hgap⟩
      · intro hsi k hk rt hrt hcomp
        obtain ⟨r, hr, m, hb, hne⟩ := hcomp
        have hnonneg : (0 : α) ≤ timeGapMaxDist refMap
            (timeGapCompMaps dist comparisonRoutes) := by
          refine le_trans ?_ hk
          positivity
        have hkc : k < timeGapCount (timeGapMaxDist refMap
            (timeGapCompMaps dist comparisonRoutes)) sampleInterval := by
          unfold timeGapCount
          rw [if_pos ⟨hsi, hnonneg⟩]
          have hz : (k : ℤ) ≤ ⌊timeGapMaxDist refMap
              (timeGapCompMaps dist comparisonRoutes) / sampleInterval⌋ := by
            rw [Int.le_floor]
            push_cast
            rw [le_div_iff hsi]
            exact hk
          omega
        obtain ⟨p, hp, hpd⟩ := timeGapPointAt_complete refMap
          (timeGapCompMaps dist comparisonRoutes) sampleInterval k rt hrt
          ⟨(r, m),
            (timeGapCompMaps_mem dist comparisonRoutes r m).mpr ⟨hr, hb⟩, hne⟩
        exact ⟨p, List.mem_filterMap.mpr ⟨k, List.mem_range.mpr hkc, hp⟩, hpd⟩

/-- Concrete instance of C1 at `ℚ`: a reference route without timestamps
yields a null result, and on a pair of 1 km two-point routes (the comparison
taking 60 s where the reference takes 1 s) the computed result satisfies the
theorem's minimum bound for `maxDistance`. -/
theorem calculateTimeGaps_correct_witness :
    calculateTimeGaps (fun (_ _ : ℕ) => (1:ℚ)) ⟨[0,1], [], [], []⟩
      [⟨[0,1], [some 1000, some 61000], [], []⟩] 1 = none ∧
    (⟨⟨[0,1], [some 1000, some 2000], [], []⟩,
      [⟨0, 0, [⟨⟨[0,1], [some 1000, some 61000], [], []⟩, 0, 0⟩]⟩,
       ⟨1, 1, [⟨⟨[0,1], [some 1000, some 61000], [], []⟩, 60, 59⟩]⟩], 1⟩ :
        TimeGapResult ℕ ℚ).maxDistance ≤
      lastDistance (⟨[0,1], [0,1]⟩ : TimeDistanceMap ℚ) := by
  constructor
  · exact (calculateTimeGaps_correct (fun (_ _ : ℕ) => (1:ℚ))
      ⟨[0,1], [], [], []⟩ [⟨[0,1], [some 1000, some 61000], [], []⟩] 1).1.mpr
      (Or.inl (by norm_num [buildTimeDistanceMap]))
  · have hres : calculateTimeGaps (fun (_ _ : ℕ) => (1:ℚ))
        ⟨[0,1], [some 1000, some 2000], [], []⟩
        [⟨[0,1], [some 1000, some 61000], [], []⟩] 1 =
        some ⟨⟨[0,1], [some 1000, some 2000], [], []⟩,
          [⟨0, 0, [⟨⟨[0,1], [some 1000, some 61000], [], []⟩, 0, 0⟩]⟩,
           ⟨1, 1, [⟨⟨[0,1], [some 1000, some 61000], [], []⟩, 60, 59⟩]⟩],
          1⟩ := by
      norm_num [calculateTimeGaps, timeGapCompMaps, timeGapMaxDist,
        timeGapCount, timeGapPointAt, buildTimeDistanceMap, buildEntries,
        getTimeAtDistance, bsearchGo, lastDistance, List.range_succ,
        List.filterMap_cons]
    exact ((calculateTimeGaps_correct (fun (_ _ : ℕ) => (1:ℚ))
      ⟨[0,1], [some 1000, some 2000], [], []⟩
      [⟨[0,1], [some 1000, some 61000], [], []⟩] 1).2 _ ⟨[0,1], [0,1]⟩ hres
      (by norm_num [buildTimeDistanceMap, buildEntries])).2.1

/-! ### C4: validateParsedData -/

theorem validateTimestamp_invalid_snd {α : Type} [LinearOrderedField α]
    (t prev : Option α) (h : (validateTimestamp t prev).1 = false) :
    (validateTimestamp t prev).2 = none := by
  cases t with
  | none => simp [validateTimestamp] at h
  | some v =>
    cases prev with
    | none => simp [validateTimestamp] at h
    | some p =>
      by_cases hlt : v < p
      · simp [validateTimestamp, hlt]
      · simp [validateTimestamp, hlt] at h

theorem validateAux_spec {α : Type} [LinearOrderedField α] :
    ∀ (raw : List (RawPoint α)) (i : ℕ) (lv : Option α),
      (validateAux raw i lv).coordinates =
        (keptPoints raw).map (fun p => (p.lat, p.lng)) ∧
      (validateAux raw i lv).elevations =
        (keptPoints raw).map (fun p =>
          if (validateElevation p.elevation).1
          then (validateElevation p.elevation).2 else none) ∧
      (validateAux raw i lv).heartRates =
        (keptPoints raw).map (fun p => p.heartRate) ∧
      (validateAux raw i lv).cadences =
        (keptPoints raw).map (fun p => p.cadence) ∧
      (validateAux raw i lv).powers =
        (keptPoints raw).map (fun p => p.power) ∧
      (validateAux raw i lv).skipped + (keptPoints raw).length = raw.length ∧
      (validateAux raw i lv).timestamps.length = (keptPoints raw).length ∧
      ((validateAux raw i lv).warnings.filter
        (fun w => decide (w.2 = WarnKind.coordWarn))).length =
        (validateAux raw i lv).skipped ∧
      (∀ k, k < (keptPoints raw).length →
        (validateAux raw i lv).timestamps.getD k none =
          tsOutput ((keptPoints raw).getD k emptyRawPoint).timestamp
            (lastSome lv ((validateAux raw i lv).timestamps.take k))) := by
  intro raw
  induction raw with
  | nil =>
    intro i lv
    refine ⟨rfl, rfl, rfl, rfl, rfl, rfl, rfl, rfl, ?_⟩
    intro k hk
    simp [keptPoints] at hk
  | cons p ps ih =>
    intro i lv
    by_cases hv : validateCoordinate p.lat p.lng = true
    · obtain ⟨ihc, ihe, ihh, ihcad, ihp, ihs, ihtl, ihw, ihts⟩ :=
        ih (i+1) (match (validateTimestamp p.timestamp lv).2 with
          | some v => some v
          | none => lv)
      have hkept : keptPoints (p :: ps) = p :: keptPoints ps := by
        unfold keptPoints
        rw [List.filter_cons, if_pos (by simpa using hv)]
      have hstep : validateAux (p :: ps) i lv =
          ⟨(p.lat, p.lng) :: (validateAux ps (i+1)
              (match (validateTimestamp p.timestamp lv).2 with
                | some v => some v
                | none => lv)).coordinates,
            (if (validateElevation p.elevation).1
              then (validateElevation p.elevation).2 else none) ::
              (validateAux ps (i+1)
                (match (validateTimestamp p.timestamp lv).2 with
                  | some v => some v
                  | none => lv)).elevations,
            tsOutput p.timestamp lv ::
              (validateAux ps (i+1)
                (match (validateTimestamp p.timestamp lv).2 with
                  | some v => some v
                  | none => lv)).timestamps,
            p.heartRate :: (validateAux ps (i+1)
              (match (validateTimestamp p.timestamp lv).2 with
                | some v => some v
                | none => lv)).heartRates,
            p.cadence :: (validateAux ps (i+1)
              (match (validateTimestamp p.timestamp lv).2 with
                | some v => some v
                | none => lv)).cadences,
            p.power :: (validateAux ps (i+1)
              (match (validateTimestamp p.timestamp lv).2 with
                | some v => some v
                | none => lv)).powers,
            (validateAux ps (i+1)
              (match (validateTimestamp p.timestamp lv).2 with
                | some v => some v
                | none => lv)).skipped,
            (if (validateElevation p.elevation).1 then []
              else [(i, WarnKind.elevWarn)]) ++
              ((if (validateTimestamp p.timestamp lv).1 then []
                else [(i, WarnKind.tsWarn)]) ++
                (validateAux ps (i+1)
                  (match (validateTimestamp p.timestamp lv).2 with
                    | some v => some v
                    | none => lv)).warnings)⟩ := by
        conv_lhs => rw [validateAux]
        rw [if_pos hv]
        rfl
      rw [hstep, hkept]
      refine ⟨?_, ?_, ?_, ?_, ?_, ?_, ?_, ?_, ?_⟩
      · dsimp only
        rw [ihc, List.map_cons]
      · dsimp only
        rw [ihe, List.map_cons]
      · dsimp only
        rw [ihh, List.map_cons]
      · dsimp only
        rw [ihcad, List.map_cons]
      · dsimp only
        rw [ihp, List.map_cons]
      · dsimp only
        simp only [List.length_cons]
        omega
      · dsimp only
        simp only [List.length_cons, List.length_map]
        rw [show (validateAux ps (i+1)
            (match (validateTimestamp p.timestamp lv).2 with
              | some v => some v
              | none => lv)).timestamps.length = (keptPoints ps).length
          from ihtl]
      · dsimp only
        rw [List.filter_append, List.filter_append, List.length_append,
          List.length_append]
        have h1 : ((if (validateElevation p.elevation).1
            then ([] : List (ℕ × WarnKind)) else [(i, WarnKind.elevWarn)]).filter
            (fun w => decide (w.2 = WarnKind.coordWarn))).length = 0 := by
          split <;> simp
        have h2 : ((if (validateTimestamp p.timestamp lv).1
            then ([] : List (ℕ × WarnKind)) else [(i, WarnKind.tsWarn)]).filter
            (fun w => decide (w.2 = WarnKind.coordWarn))).length = 0 := by
          split <;> simp
        rw [h1, h2, ihw]
        omega
      · intro k hk
        cases k with
        | zero => rfl
        | succ k' =>
          have hk' : k' < (keptPoints ps).length := by
            simpa using hk
          have hlast : lastSome lv ((tsOutput p.timestamp lv ::
              (validateAux ps (i+1)
                (match (validateTimestamp p.timestamp lv).2 with
                  | some v => some v
                  | none => lv)).timestamps).take (k' + 1)) =
              lastSome (match (validateTimestamp p.timestamp lv).2 with
                | some v => some v
                | none => lv)
                ((validateAux ps (i+1)
                  (match (validateTimestamp p.timestamp lv).2 with
                    | some v => some v
                    | none => lv)).timestamps.take k') := by
            rw [List.take_succ_cons]
            show lastSome (match tsOutput p.timestamp lv with
              | some v => some v
              | none => lv) _ = _
            congr 1
            by_cases hb : (validateTimestamp p.timestamp lv).1 = true
            · have ht : tsOutput p.timestamp lv =
                  (validateTimestamp p.timestamp lv).2 := by
                unfold tsOutput
                rw [if_pos hb]
              rw [ht]
            · have hb' : (validateTimestamp p.timestamp lv).1 = false := by
                revert hb
                cases (validateTimestamp p.timestamp lv).1 <;> simp
              have h2 := validateTimestamp_invalid_snd _ _ hb'
              have ht : tsOutput p.timestamp lv = none := by
                unfold tsOutput
                rw [hb']
                rfl
              rw [ht, h2]
          dsimp only
          rw [show ((p :: keptPoints ps).getD (k' + 1) emptyRawPoint) =
            (keptPoints ps).getD k' emptyRawPoint from rfl]
          rw [show (tsOutput p.timestamp lv ::
              (validateAux ps (i+1)
                (match (validateTimestamp p.timestamp lv).2 with
                  | some v => some v
                  | none => lv)).timestamps).getD (k' + 1) none =
              (validateAux ps (i+1)
                (match (validateTimestamp p.timestamp lv).2 with
                  | some v => some v
                  | none => lv)).timestamps.getD k' none from rfl]
          rw [hlast]
          exact ihts k' hk'
    · obtain ⟨ihc, ihe, ihh, ihcad, ihp, ihs, ihtl, ihw, ihts⟩ := ih (i+1) lv
      have hkept : keptPoints (p :: ps) = keptPoints ps := by
        unfold keptPoints
        rw [List.filter_cons, if_neg (by simpa using hv)]
      have hstep : validateAux (p :: ps) i lv =
          ⟨(validateAux ps (i+1) lv).coordinates,
            (validateAux ps (i+1) lv).elevations,
            (validateAux ps (i+1) lv).timestamps,
            (validateAux ps (i+1) lv).heartRates,
            (validateAux ps (i+1) lv).cadences,
            (validateAux ps (i+1) lv).powers,
            (validateAux ps (i+1) lv).skipped + 1,
            (i, WarnKind.coordWarn) :: (validateAux ps (i+1) lv).warnings⟩ := by
        conv_lhs => rw [validateAux]
        rw [if_neg hv]
      rw [hstep, hkept]
      refine ⟨ihc, ihe, ihh, ihcad, ihp, ?_, ihtl, ?_, ihts⟩
      · dsimp only
        simp only [List.length_cons]
        omega
      · dsimp only
        rw [List.filter_cons, if_pos (by simp)]
        simp only [List.length_cons]
        rw [ihw]

/-- C4: `validateParsedData` drops a point exactly when its coordinate is
invalid (incrementing `skipped` and recording a coordinate warning), keeps
every other point with its elevation degraded via `validateElevation` and
its other channels passed through, all result arrays share the length
`N - skipped` and stay index-aligned (they are all images of the same kept
sublist), the timestamp slot of the `k`-th kept point is validated against
the last accepted non-null output timestamp before it, and a timestamp
strictly earlier than that value is invalid while an equal one is accepted. -/
theorem validateParsedData_correct {α : Type} [LinearOrderedField α]
    (raw : List (RawPoint α)) :
    (validateParsedData raw).coordinates =
      (keptPoints raw).map (fun p => (p.lat, p.lng)) ∧
    (validateParsedData raw).elevations =
      (keptPoints raw).map (fun p =>
        if (validateElevation p.elevation).1
        then (validateElevation p.elevation).2 else none) ∧
    (validateParsedData raw).heartRates =
      (keptPoints raw).map (fun p => p.heartRate) ∧
    (validateParsedData raw).cadences =
      (keptPoints raw).map (fun p => p.cadence) ∧
    (validateParsedData raw).powers =
      (keptPoints raw).map (fun p => p.power) ∧
    (validateParsedData raw).skipped + (keptPoints raw).length = raw.length ∧
    (validateParsedData raw).coordinates.length =
      raw.length - (validateParsedData raw).skipped ∧
    (validateParsedData raw).elevations.length =
      (validateParsedData raw).coordinates.length ∧
    (validateParsedData raw).timestamps.length =
      (validateParsedData raw).coordinates.length ∧
    (validateParsedData raw).heartRates.length =
      (validateParsedData raw).coordinates.length ∧
    (validateParsedData raw).cadences.length =
      (validateParsedData raw).coordinates.length ∧
    (validateParsedData raw).powers.length =
      (validateParsedData raw).coordinates.length ∧
    ((validateParsedData raw).warnings.filter
      (fun w => decide (w.2 = WarnKind.coordWarn))).length =
      (validateParsedData raw).skipped ∧
    (∀ k, k < (keptPoints raw).length →
      (validateParsedData raw).timestamps.getD k none =
        tsOutput ((keptPoints raw).getD k emptyRawPoint).timestamp
          (lastSome none ((validateParsedData raw).timestamps.take k))) ∧
    (∀ t prev : α, prev ≤ t →
      validateTimestamp (some t) (some prev) = (true, some t)) ∧
    (∀ t prev : α, t < prev →
      validateTimestamp (some t) (some prev) = (false, none)) := by
  obtain ⟨hc, he, hh, hcad, hp, hs, htl, hw, hts⟩ := validateAux_spec raw 0 none
  have hdef : validateParsedData raw = validateAux raw 0 none := rfl
  rw [hdef]
  refine ⟨hc, he, hh, hcad, hp, hs, ?_, ?_, ?_, ?_, ?_, ?_, hw, hts, ?_, ?_⟩
  · rw [hc, List.length_map]
    omega
  · rw [hc, he, List.length_map, List.length_map]
  · rw [hc, htl, List.length_map]
  · rw [hc, hh, List.length_map, List.length_map]
  · rw [hc, hcad, List.length_map, List.length_map]
  · rw [hc, hp, List.length_map, List.length_map]
  · intro t prev hle
    simp [validateTimestamp, not_lt.mpr hle]
  · intro t prev hlt
    simp [validateTimestamp, hlt]

/-- Concrete instance of C4 at `ℚ`: equal timestamps are accepted, strictly
earlier ones rejected, and on a raw record set whose first point has
latitude 200 the first kept point's output timestamp obeys the threaded
chronology formula. -/
theorem validateParsedData_correct_witness :
    validateTimestamp (some (5:ℚ)) (some 5) = (true, some 5) ∧
    validateTimestamp (some (4:ℚ)) (some 5) = (false, none) ∧
    (validateParsedData ([⟨some 200, some 0, some 100, some 1000, none, none,
        none⟩,
      ⟨some 1, some 1, some 50000, some 5000, some 150, none, none⟩,
      ⟨some 1, some 1, some 100, some 4000, none, none, none⟩] :
        List (RawPoint ℚ))).timestamps.getD 0 none =
      tsOutput ((keptPoints ([⟨some 200, some 0, some 100, some 1000, none,
          none, none⟩,
        ⟨some 1, some 1, some 50000, some 5000, some 150, none, none⟩,
        ⟨some 1, some 1, some 100, some 4000, none, none, none⟩] :
          List (RawPoint ℚ))).getD 0 emptyRawPoint).timestamp
        (lastSome none ((validateParsedData ([⟨some 200, some 0, some 100,
            some 1000, none, none, none⟩,
          ⟨some 1, some 1, some 50000, some 5000, some 150, none, none⟩,
          ⟨some 1, some 1, some 100, some 4000, none, none, none⟩] :
            List (RawPoint ℚ))).timestamps.take 0)) := by
  refine ⟨(validateParsedData_correct ([] : List (RawPoint ℚ))).2.2.2.2.2.2.2.2.2.2.2.2.2.2.1
    5 5 le_rfl, ?_, ?_⟩
  · exact (validateParsedData_correct ([] : List (RawPoint ℚ))).2.2.2.2.2.2.2.2.2.2.2.2.2.2.2
      4 5 (by norm_num)
  · exact (validateParsedData_correct _).2.2.2.2.2.2.2.2.2.2.2.2.2.1 0
      (by norm_num [keptPoints, validateCoordinate, List.filter])

/-! ### C8: calculateZones -/

theorem addAt_length {β : Type} [Add β] :
    ∀ (n : ℕ) (d : β) (l : List β), (addAt n d l).length = l.length := by
  intro n
  induction n with
  | zero =>
    intro d l
    cases l with
    | nil => rfl
    | cons x xs => rfl
  | succ n' ih =>
    intro d l
    cases l with
    | nil => rfl
    | cons x xs =>
      show (x :: addAt n' d xs).length = (x :: xs).length
      simp [ih]

theorem addAt_sum {β : Type} [AddCommMonoid β] :
    ∀ (n : ℕ) (d : β) (l : List β), n < l.length →
      (addAt n d l).sum = l.sum + d := by
  intro n
  induction n with
  | zero =>
    intro d l hl
    cases l with
    | nil => simp at hl
    | cons x xs =>
      show ((x + d) :: xs).sum = (x :: xs).sum + d
      simp [List.sum_cons]
      exact add_right_comm x d xs.sum
  | succ n' ih =>
    intro d l hl
    cases l with
    | nil => simp at hl
    | cons x xs =>
      show (x :: addAt n' d xs).sum = (x :: xs).sum + d
      rw [List.sum_cons, List.sum_cons, ih d xs (by simpa using hl)]
      rw [add_assoc]

theorem argmaxAux_lt {α : Type} [LinearOrder α] :
    ∀ (xs : List α) (c b : ℕ) (bv : α) (n : ℕ), b < n → c + xs.length ≤ n →
      argmaxAux c b bv xs < n := by
  intro xs
  induction xs with
  | nil =>
    intro c b bv n hb _
    exact hb
  | cons x xs' ih =>
    intro c b bv n hb hc
    show (if bv < x then argmaxAux (c+1) c x xs'
      else argmaxAux (c+1) b bv xs') < n
    split
    · exact ih (c+1) c x n (by simp at hc; omega) (by simp at hc; omega)
    · exact ih (c+1) b bv n hb (by simp at hc; omega)

theorem argmaxIdx_lt {α : Type} [LinearOrder α] (l : List α) (h : l ≠ []) :
    argmaxIdx l < l.length := by
  cases l with
  | nil => exact absurd rfl h
  | cons v rest =>
    show argmaxAux 1 0 v rest < (v :: rest).length
    exact argmaxAux_lt rest 1 0 v (v :: rest).length (by simp)
      (by rw [List.length_cons]; omega)

theorem foldl_length_invariant {β γ : Type} (f : List β → γ → List β)
    (h : ∀ acc x, (f acc x).length = acc.length) :
    ∀ (l : List γ) (acc : List β), (l.foldl f acc).length = acc.length := by
  intro l
  induction l with
  | nil => intro acc; rfl
  | cons x xs ih =>
    intro acc
    rw [List.foldl_cons, ih, h]

theorem zoneTimes_length {α : Type} [LinearOrderedField α] [FloorRing α]
    (minV maxV : α) (values timestamps : List (Option α)) :
    (zoneTimes minV maxV values timestamps).length = 5 := by
  unfold zoneTimes
  rw [foldl_length_invariant]
  · rfl
  · intro acc i
    by_cases h0 : i = 0
    · rw [if_pos h0]
    · rw [if_neg h0]
      cases values.getD i none with
      | none => rfl
      | some v =>
        cases timestamps.getD i none with
        | none => rfl
        | some t =>
          cases timestamps.getD (i-1) none with
          | none => rfl
          | some tp =>
            dsimp only
            split
            · exact addAt_length _ _ _
            · rfl

/-- C8 (modelled from the spec, §4.9; the `calculateZones` implementation is
not under src/): for every values series and aligned timestamps,
`calculateZones` returns null when fewer than 10 non-null values are
present, and otherwise returns exactly 5 zones whose percent fields sum to
exactly 100, the rounding residual being absorbed by an adjustment on the
largest zone. -/
theorem calculateZones_correct {α : Type} [LinearOrderedField α]
    [FloorRing α] (values timestamps : List (Option α)) :
    ((values.filterMap id).length < 10 →
      calculateZones values timestamps = none) ∧
    (10 ≤ (values.filterMap id).length →
      ∃ z, calculateZones values timestamps = some z ∧
        z.zones.length = 5 ∧
        (z.zones.map (fun b => b.percent)).sum = 100) := by
  constructor
  · intro h
    unfold calculateZones
    rw [if_pos h]
  · intro h
    have hguard : ¬ (values.filterMap id).length < 10 := not_lt.mpr h
    unfold calculateZones
    rw [if_neg hguard]
    refine ⟨_, rfl, ?_, ?_⟩
    · dsimp only
      rw [List.length_map, List.length_zip, List.length_zip]
      rw [addAt_length, List.length_map, zoneTimes_length]
      simp
    · dsimp only
      rw [List.map_map]
      have hmap : ∀ (ps : List ℤ) (qs : List (α × ℕ)) (minV width : α),
          ps.length ≤ qs.length →
          (List.map ((fun b => b.percent) ∘ (fun x =>
            (⟨minV + (x.2.2 : α) * width, minV + ((x.2.2 : α) + 1) * width,
              x.2.1, x.1⟩ : ZoneBucket α))) (ps.zip qs)) = ps := by
        intro ps
        induction ps with
        | nil => intro qs minV width _; rfl
        | cons a as ihm =>
          intro qs minV width hlen
          cases qs with
          | nil => simp at hlen
          | cons q qs' =>
            show a :: _ = a :: as
            rw [show List.zipWith Prod.mk as qs' = as.zip qs' from rfl,
              ihm qs' minV width (by simpa using hlen)]
      rw [hmap]
      · have hztlen : (zoneTimes
            ((values.filterMap id).foldl min ((values.filterMap id).headD 0))
            ((values.filterMap id).foldl max ((values.filterMap id).headD 0))
            values timestamps).length = 5 := zoneTimes_length _ _ _ _
        have hargmax : argmaxIdx (zoneTimes
            ((values.filterMap id).foldl min ((values.filterMap id).headD 0))
            ((values.filterMap id).foldl max ((values.filterMap id).headD 0))
            values timestamps) < 5 := by
          rw [← hztlen]
          apply argmaxIdx_lt
          intro hnil
          rw [hnil] at hztlen
          simp at hztlen
        rw [addAt_sum]
        · omega
        · rw [List.length_map, hztlen]
          exact hargmax
      · rw [addAt_length, List.length_map, List.length_zip, zoneTimes_length]
        simp [zoneTimes_length]

/-- Concrete instance of C8 at `ℚ`: two values are too few (null result),
and twelve values spread over 100-210 with one-second spacing yield five
zones whose percentages sum to exactly 100. -/
theorem calculateZones_correct_witness :
    calculateZones ([some 100, some 110] : List (Option ℚ))
      [some 0, some 1000] = none ∧
    ∃ z, calculateZones
        ([some 100, some 110, some 120, some 130, some 140, some 150,
          some 160, some 170, some 180, some 190, some 200, some 210] :
          List (Option ℚ))
        [some 0, some 1000, some 2000, some 3000, some 4000, some 5000,
          some 6000, some 7000, some 8000, some 9000, some 10000,
          some 11000] = some z ∧
      z.zones.length = 5 ∧
      (z.zones.map (fun b => b.percent)).sum = 100 := by
  constructor
  · exact (calculateZones_correct _ _).1 (by norm_num [List.filterMap_cons])
  · exact (calculateZones_correct _ _).2 (by norm_num [List.filterMap_cons])
